import Mathlib

/-!
Verification development for the recipe-site repository (scripts/scrape_recipes.py
and scripts/generate_site.py).

The two scripts are shallowly embedded below.  Python values that flow through
the pipeline (plist contents, recipe-record dicts, JSON documents) are modelled
by the inductive type `JVal`; Python dicts are ordered association lists, which
matches the insertion-order semantics of Python dicts and of plist/JSON objects
produced by `plistlib` / `json`.  External collaborators (the `requests` HTTP
client and the `recipe_scrapers` library) are modelled as inputs: each fetch of
a URL either yields a parsed scraper result or raises an exception with a
textual description (`FetchResult`).  Code that can raise an uncaught Python
exception is embedded in the `Except Unit` monad.
-/

/-- Model of a Python/JSON/plist value as it occurs in this pipeline:
`None`/null, booleans, integers, strings, lists and (ordered) dicts with
string keys. -/
inductive JVal where
  | null : JVal
  | bool : Bool → JVal
  | num : Int → JVal
  | str : String → JVal
  | arr : List JVal → JVal
  | obj : List (String × JVal) → JVal

/-- Lookup of a key in the association list backing a Python dict. -/
def lookupField : List (String × JVal) → String → Option JVal
  | [], _ => none
  | (k, v) :: rest, key => if k = key then some v else lookupField rest key

/-- Python `d[k]` / `k in d` probing: `some v` when the key is present.
On a non-dict value there is no key, matching `isinstance(item, dict)` guards. -/
def JVal.get? : JVal → String → Option JVal
  | .obj fs, k => lookupField fs k
  | _, _ => none

/-- Python `d.get(k)` (default `None`). -/
def pyGet (r : JVal) (k : String) : JVal := (r.get? k).getD .null

/-- Python `d.get(k, default)`. -/
def pyGetD (r : JVal) (k : String) (d : JVal) : JVal := (r.get? k).getD d

/-- Python truthiness of a value (`if v:`): `None`, `False`, `0`, `''`,
`[]` and `{}` are falsy, everything else is truthy. -/
def JVal.truthy : JVal → Bool
  | .null => false
  | .bool b => b
  | .num n => n != 0
  | .str s => s ≠ ""
  | .arr xs => !xs.isEmpty
  | .obj fs => !fs.isEmpty

/-- Python `a or b` on values: `a` when truthy, else `b`. -/
def pyOr (a b : JVal) : JVal := if a.truthy then a else b

/-- Python `str()` of a value as interpolated into an f-string.  Exact for the
scalar values that actually reach the templates (`None`, booleans, ints,
strings); for lists/dicts it follows `repr`-style rendering of quote-free
strings, the only shapes the pipeline can produce there. -/
def pyStr : JVal → String
  | .null => "None"
  | .bool true => "True"
  | .bool false => "False"
  | .num n => toString n
  | .str s => s
  | .arr xs => "[" ++ String.intercalate ", " (xs.map fun v =>
      match v with
      | .str s => "\x27" ++ s ++ "\x27"
      | .null => "None"
      | .bool true => "True"
      | .bool false => "False"
      | .num n => toString n
      | _ => "...") ++ "]"
  | .obj _ => "\x7b...\x7d"

/-! ### urllib.parse: the `netloc` of a URL

Model of `urlparse(url).netloc` from the Python standard library, on the code
path taken for ordinary URL strings: tab/CR/LF bytes are removed, a leading
`scheme:` (an ASCII letter followed by letters, digits, `+`, `-`, `.`) is
stripped, and if the remainder starts with `//` the netloc is everything up to
the next `/`, `?` or `#`. -/

/-- Characters allowed in a URL scheme after the leading letter. -/
def schemeChar (c : Char) : Bool := c.isAlphanum || c = '+' || c = '-' || c = '.'

/-- Remove the unsafe bytes (`\t`, `\r`, `\n`) that `urlsplit` deletes. -/
def removeUnsafeURLBytes (s : List Char) : List Char :=
  s.filter fun c => ¬(c = '\t' ∨ c = '\r' ∨ c = '\n')

/-- Drop a leading `scheme:` prefix if present (mirrors `urlsplit`). -/
def dropScheme (s : List Char) : List Char :=
  match s.findIdx? (· = ':') with
  | none => s
  | some i =>
    if 0 < i && (s.take i).all (fun c => schemeChar c) &&
        (match s.head? with | some c => c.isAlpha | none => false) then
      s.drop (i + 1)
    else s

/-- The netloc: after `//`, everything up to the first `/`, `?` or `#`. -/
def netlocOf (s : List Char) : List Char :=
  match s with
  | '/' :: '/' :: rest => rest.takeWhile fun c => ¬(c = '/' ∨ c = '?' ∨ c = '#')
  | _ => []

/-- Model of `urlparse(url).netloc`. -/
def urlparse_netloc (url : String) : String :=
  ⟨netlocOf (dropScheme (removeUnsafeURLBytes url.data))⟩

/-! ### scrape_recipes.py: `scrape_recipe` and `scrape_all_recipes` -/

/-- The structured fields returned by the external `recipe_scrapers` object for
a successfully fetched page.  `author`, `cuisine` and `category` are `none`
when the scraper object lacks the corresponding attribute (`hasattr` false). -/
structure ScraperOut where
  title : JVal
  host : JVal
  total_time : JVal
  yields : JVal
  ingredients : JVal
  instructions : JVal
  image : JVal
  author : Option JVal
  cuisine : Option JVal
  category : Option JVal

/-- Outcome of fetching and parsing one URL: either the scraper result, or an
exception (network error, non-2xx from `raise_for_status`, parser failure)
with its textual description `str(e)`. -/
inductive FetchResult where
  | ok : ScraperOut → FetchResult
  | exn : String → FetchResult

/-- Embedding of `scrape_recipe(url, bookmark_title)`: the `try` branch builds
the full record dict (in source order) with `scraped_successfully=True` and
`error=None`; the `except` branch builds the partial record with
`scraped_successfully=False`, `error=str(e)`, `host=urlparse(url).netloc` and
`title = bookmark_title or 'Unknown Recipe'`. -/
def scrape_recipe (url bookmark_title : String) (fr : FetchResult) : JVal :=
  match fr with
  | .ok s => .obj [
      ("title", s.title),
      ("url", .str url),
      ("bookmark_title", .str bookmark_title),
      ("host", s.host),
      ("total_time", s.total_time),
      ("yields", s.yields),
      ("ingredients", s.ingredients),
      ("instructions", s.instructions),
      ("image", s.image),
      ("author", s.author.getD (.str "Unknown")),
      ("cuisine", s.cuisine.getD .null),
      ("category", s.category.getD .null),
      ("scraped_successfully", .bool true),
      ("error", .null)]
  | .exn msg => .obj [
      ("title", .str (if bookmark_title = "" then "Unknown Recipe" else bookmark_title)),
      ("url", .str url),
      ("bookmark_title", .str bookmark_title),
      ("host", .str (urlparse_netloc url)),
      ("scraped_successfully", .bool false),
      ("error", .str msg)]

/-- A bookmark pair handed to the fetcher by the extractor. -/
structure Bookmark where
  url : String
  bookmark_title : String

/-- The loop body of `scrape_all_recipes`: one `scrape_recipe` call per
bookmark, appending each record in order.  `env i` is the outcome the network
and parser produce for the `i`-th request (`i` counts from the given start). -/
def scrape_all_go (env : Nat → FetchResult) (i : Nat) : List Bookmark → List JVal
  | [] => []
  | b :: rest => scrape_recipe b.url b.bookmark_title (env i) :: scrape_all_go env (i + 1) rest

/-- Embedding of `scrape_all_recipes(bookmarks)`. -/
def scrape_all_recipes (env : Nat → FetchResult) (bookmarks : List Bookmark) : List JVal :=
  scrape_all_go env 0 bookmarks

theorem scrape_all_go_length (env : Nat → FetchResult) (i : Nat) (bs : List Bookmark) :
    (scrape_all_go env i bs).length = bs.length := by
  induction bs generalizing i with
  | nil => rfl
  | cons b rest ih => simp [scrape_all_go, ih]

theorem scrape_all_go_getElem? (env : Nat → FetchResult) (i : Nat) (bs : List Bookmark)
    (j : Nat) (b : Bookmark) (h : bs[j]? = some b) :
    (scrape_all_go env i bs)[j]? = some (scrape_recipe b.url b.bookmark_title (env (i + j))) := by
  induction bs generalizing i j with
  | nil => simp at h
  | cons hd rest ih =>
    cases j with
    | zero => simp at h; subst h; simp [scrape_all_go]
    | succ k =>
      simp only [List.getElem?_cons_succ] at h
      have := ih (i + 1) k h
      simpa [scrape_all_go, Nat.add_assoc, Nat.add_comm 1 k] using this

/-! ### scrape_recipes.py: the bookmark extractor -/

/-- Python comparison `item.get('Title') == 'com.apple.ReadingList'`: true
exactly when the key is present with that string value. -/
def isReadingListTitle : Option JVal → Bool
  | some (.str s) => s = "com.apple.ReadingList"
  | _ => false

theorem sizeOf_lookupField {fs : List (String × JVal)} {k : String} {v : JVal}
    (h : lookupField fs k = some v) : sizeOf v < sizeOf (JVal.obj fs) := by
  induction fs with
  | nil => simp [lookupField] at h
  | cons p rest ih =>
    obtain ⟨pk, pv⟩ := p
    unfold lookupField at h
    by_cases hk : pk = k
    · simp [hk] at h
      subst h
      simp
      omega
    · simp [hk] at h
      have := ih h
      simp at this ⊢
      omega

mutual
/-- Embedding of `find_reading_list(item)`: if the item is a dict whose
`Title` equals the sentinel, return its `Children` (default `[]`); otherwise,
if it has a `Children` key, loop over the children depth-first (`frl_children`)
and otherwise return `None`.  Non-dict items return `None`.  Iterating a
string or a dict in Python yields one-character strings resp. string keys,
none of which is a dict, so each recursive call returns `None` and the loop
falls through — embedded directly as `.ok none`; iterating any other value
(`int`, `bool`, `None`) raises an uncaught `TypeError`, embedded as
`.error ()`. -/
def find_reading_list : JVal → Except Unit (Option JVal)
  | .obj fs =>
    if isReadingListTitle (lookupField fs "Title") then
      .ok (some ((lookupField fs "Children").getD (.arr [])))
    else
      match h : lookupField fs "Children" with
      | none => .ok none
      | some (.arr xs) => frl_children xs
      | some (.str _) => .ok none
      | some (.obj _) => .ok none
      | some (.null) => .error ()
      | some (.bool _) => .error ()
      | some (.num _) => .error ()
  | _ => .ok none
termination_by j => sizeOf j
decreasing_by
  have h1 := sizeOf_lookupField h
  simp at h1 ⊢
  omega

/-- The `for child in item['Children']` loop of `find_reading_list`: the first
recursive result that is truthy (`if result:`) is returned; falsy results
(`None`, but also an empty children list) are skipped. -/
def frl_children : List JVal → Except Unit (Option JVal)
  | [] => .ok none
  | c :: cs =>
    match find_reading_list c with
    | .error e => .error e
    | .ok (some v) => if v.truthy then .ok (some v) else frl_children cs
    | .ok none => frl_children cs
termination_by xs => sizeOf xs
decreasing_by
  all_goals (simp; try omega)
end

mutual
/-- Specification-side definition, following the claim's words: the list of
`Children` values (default `[]`) of the folders whose `Title` equals the
sentinel, in depth-first document order over the search space of the
hierarchical structure (a dict's `Children` list). -/
def dfsSentinels : JVal → List JVal
  | .obj fs =>
    if isReadingListTitle (lookupField fs "Title") then
      [(lookupField fs "Children").getD (.arr [])]
    else
      match h : lookupField fs "Children" with
      | some (.arr xs) => dfsSentinelsList xs
      | _ => []
  | _ => []
termination_by j => sizeOf j
decreasing_by
  have h1 := sizeOf_lookupField h
  simp at h1 ⊢
  omega

/-- Depth-first collection of sentinel folders over a list of siblings. -/
def dfsSentinelsList : List JVal → List JVal
  | [] => []
  | c :: cs => dfsSentinels c ++ dfsSentinelsList cs
termination_by xs => sizeOf xs
decreasing_by
  all_goals (simp; try omega)
end

/-- The structure's root itself is the sentinel folder. -/
def rootSentinel : JVal → Bool
  | .obj fs => isReadingListTitle (lookupField fs "Title")
  | _ => false

/-- State of the Safari bookmarks file as seen by the extractor: absent,
present but failing to parse (`plistlib.load` raises, caught), or parsed into
a plist value. -/
inductive FileState where
  | absent : FileState
  | unreadable : FileState
  | content : JVal → FileState

/-- Python `d.get(k, default)` as a method call on an arbitrary value: raises
`AttributeError` when the receiver is not a dict. -/
def pyGetMethod (v : JVal) (k : String) (d : JVal) : Except Unit JVal :=
  match v with
  | .obj fs => .ok ((lookupField fs k).getD d)
  | _ => .error ()

/-- One iteration of the URL-extraction loop: a dict item containing
`URLString` yields a `(url, bookmark_title)` pair, where the title is
`item.get('URIDictionary', {}).get('title', '')` falling back (Python `or`,
lazily) to `item.get('ReadingList', {}).get('Title', 'Untitled')`; other items
are skipped. -/
def extractItem (item : JVal) : Except Unit (Option (JVal × JVal)) :=
  match item with
  | .obj fs =>
    match lookupField fs "URLString" with
    | none => .ok none
    | some url =>
      match pyGetMethod ((lookupField fs "URIDictionary").getD (.obj [])) "title" (.str "") with
      | .error e => .error e
      | .ok t1 =>
        if t1.truthy then
          .ok (some (url, t1))
        else
          match pyGetMethod ((lookupField fs "ReadingList").getD (.obj [])) "Title" (.str "Untitled") with
          | .error e => .error e
          | .ok t2 => .ok (some (url, t2))
  | _ => .ok none

/-- The `for item in reading_list_items` loop, appending matches in order. -/
def extractLoop : List JVal → Except Unit (List (JVal × JVal))
  | [] => .ok []
  | it :: rest =>
    match extractItem it with
    | .error e => .error e
    | .ok o =>
      match extractLoop rest with
      | .error e => .error e
      | .ok tl =>
        match o with
        | some b => .ok (b :: tl)
        | none => .ok tl

/-- Embedding of `extract_urls_from_safari_reading_list()`: empty when the
bookmarks file is absent or unreadable; otherwise `find_reading_list` runs on
the parsed plist (its `TypeError` would propagate uncaught), a falsy result
(`None` or an empty children list) yields the empty list, and a truthy result
is iterated: a list is scanned item by item, a string or dict yields only
non-dict items (characters resp. keys) and hence no URLs, and any other truthy
value raises an uncaught `TypeError`. -/
def extract_urls_from_safari_reading_list (fs : FileState) :
    Except Unit (List (JVal × JVal)) :=
  match fs with
  | .absent => .ok []
  | .unreadable => .ok []
  | .content plist =>
    match find_reading_list plist with
    | .error e => .error e
    | .ok none => .ok []
    | .ok (some v) =>
      if v.truthy then
        match v with
        | .arr items => extractLoop items
        | .str _ => .ok []
        | .obj _ => .ok []
        | _ => .error ()
      else .ok []

/-! ### Unfolding lemmas for the depth-first search -/

theorem find_reading_list_not_obj (j : JVal) (hj : ∀ fs, j ≠ .obj fs) :
    find_reading_list j = .ok none := by
  match j with
  | .null | .bool _ | .num _ | .str _ | .arr _ => rw [find_reading_list] <;> simp
  | .obj fs => exact absurd rfl (hj fs)

theorem find_reading_list_sentinel (fs : List (String × JVal))
    (hs : isReadingListTitle (lookupField fs "Title") = true) :
    find_reading_list (.obj fs) = .ok (some ((lookupField fs "Children").getD (.arr []))) := by
  rw [find_reading_list]
  simp [hs]

theorem find_reading_list_no_children (fs : List (String × JVal))
    (hs : ¬ isReadingListTitle (lookupField fs "Title") = true)
    (hc : lookupField fs "Children" = none) :
    find_reading_list (.obj fs) = .ok none := by
  rw [find_reading_list]
  simp only [hs, Bool.false_eq_true, if_false]
  split <;> simp_all

theorem find_reading_list_children_arr (fs : List (String × JVal)) (xs : List JVal)
    (hs : ¬ isReadingListTitle (lookupField fs "Title") = true)
    (hc : lookupField fs "Children" = some (.arr xs)) :
    find_reading_list (.obj fs) = frl_children xs := by
  rw [find_reading_list]
  simp only [hs, Bool.false_eq_true, if_false]
  split <;> simp_all

theorem find_reading_list_children_str (fs : List (String × JVal)) (s : String)
    (hs : ¬ isReadingListTitle (lookupField fs "Title") = true)
    (hc : lookupField fs "Children" = some (.str s)) :
    find_reading_list (.obj fs) = .ok none := by
  rw [find_reading_list]
  simp only [hs, Bool.false_eq_true, if_false]
  split <;> simp_all

theorem find_reading_list_children_obj (fs gs : List (String × JVal))
    (hs : ¬ isReadingListTitle (lookupField fs "Title") = true)
    (hc : lookupField fs "Children" = some (.obj gs)) :
    find_reading_list (.obj fs) = .ok none := by
  rw [find_reading_list]
  simp only [hs, Bool.false_eq_true, if_false]
  split <;> simp_all

theorem find_reading_list_children_bad (fs : List (String × JVal)) (v : JVal)
    (hs : ¬ isReadingListTitle (lookupField fs "Title") = true)
    (hc : lookupField fs "Children" = some v)
    (hv : ∀ xs, v ≠ .arr xs) (hvs : ∀ s, v ≠ .str s) (hvo : ∀ gs, v ≠ .obj gs) :
    find_reading_list (.obj fs) = .error () := by
  rw [find_reading_list]
  simp only [hs, Bool.false_eq_true, if_false]
  split
  · next heq => rw [hc] at heq; exact Option.noConfusion heq
  · next xs heq => rw [hc] at heq; injection heq with h2; exact absurd h2 (hv _)
  · next s heq => rw [hc] at heq; injection heq with h2; exact absurd h2 (hvs _)
  · next gs heq => rw [hc] at heq; injection heq with h2; exact absurd h2 (hvo _)
  all_goals rfl

theorem dfsSentinels_not_obj (j : JVal) (hj : ∀ fs, j ≠ .obj fs) :
    dfsSentinels j = [] := by
  match j with
  | .null | .bool _ | .num _ | .str _ | .arr _ => rw [dfsSentinels] <;> simp
  | .obj fs => exact absurd rfl (hj fs)

theorem dfsSentinels_sentinel (fs : List (String × JVal))
    (hs : isReadingListTitle (lookupField fs "Title") = true) :
    dfsSentinels (.obj fs) = [(lookupField fs "Children").getD (.arr [])] := by
  rw [dfsSentinels]
  simp [hs]

theorem dfsSentinels_children_arr (fs : List (String × JVal)) (xs : List JVal)
    (hs : ¬ isReadingListTitle (lookupField fs "Title") = true)
    (hc : lookupField fs "Children" = some (.arr xs)) :
    dfsSentinels (.obj fs) = dfsSentinelsList xs := by
  rw [dfsSentinels]
  simp only [hs, Bool.false_eq_true, if_false]
  split <;> simp_all

theorem dfsSentinels_children_not_arr (fs : List (String × JVal))
    (hs : ¬ isReadingListTitle (lookupField fs "Title") = true)
    (hc : ∀ xs, lookupField fs "Children" ≠ some (.arr xs)) :
    dfsSentinels (.obj fs) = [] := by
  rw [dfsSentinels]
  simp only [hs, Bool.false_eq_true, if_false]

/-- Joint characterization of `find_reading_list` and its child loop, by strong
induction on size: whenever no `TypeError` is raised, the search returns the
root folder's children if the root itself is the sentinel, and otherwise the
first truthy `Children` value of a sentinel folder in depth-first document
order. -/
theorem frl_spec_aux : ∀ n : Nat,
    (∀ j : JVal, sizeOf j ≤ n → ∀ r, find_reading_list j = .ok r →
      r = if rootSentinel j then some ((j.get? "Children").getD (.arr []))
          else (dfsSentinels j).find? JVal.truthy) ∧
    (∀ xs : List JVal, sizeOf xs ≤ n → ∀ r, frl_children xs = .ok r →
      r = (dfsSentinelsList xs).find? JVal.truthy) := by
  intro n
  induction n using Nat.strong_induction_on with
  | _ n ih =>
    constructor
    · intro j hj r h
      match j with
      | .null | .bool _ | .num _ | .str _ | .arr _ =>
        rw [find_reading_list_not_obj _ (by simp)] at h
        simp only [Except.ok.injEq] at h
        subst h
        rw [dfsSentinels_not_obj _ (by simp)]
        simp [rootSentinel]
      | .obj fs =>
        by_cases hs : isReadingListTitle (lookupField fs "Title") = true
        · rw [find_reading_list_sentinel fs hs] at h
          simp only [Except.ok.injEq] at h
          subst h
          simp [rootSentinel, hs, JVal.get?]
        · have hroot : rootSentinel (.obj fs) = false := by
            simp only [rootSentinel]
            exact Bool.not_eq_true _ ▸ hs
          simp only [hroot, Bool.false_eq_true, if_false]
          cases hc : lookupField fs "Children" with
          | none =>
            rw [find_reading_list_no_children fs hs hc] at h
            simp only [Except.ok.injEq] at h
            subst h
            rw [dfsSentinels_children_not_arr fs hs (by simp [hc])]
            rfl
          | some ch =>
            match ch with
            | .arr xs =>
              rw [find_reading_list_children_arr fs xs hs hc] at h
              have hsx : sizeOf xs < n := by
                have h1 := sizeOf_lookupField hc
                simp at h1 hj
                omega
              rw [(ih (sizeOf xs) hsx).2 xs (le_refl _) r h]
              rw [dfsSentinels_children_arr fs xs hs hc]
            | .str s =>
              rw [find_reading_list_children_str fs s hs hc] at h
              simp only [Except.ok.injEq] at h
              subst h
              rw [dfsSentinels_children_not_arr fs hs (by simp [hc])]
              rfl
            | .obj gs =>
              rw [find_reading_list_children_obj fs gs hs hc] at h
              simp only [Except.ok.injEq] at h
              subst h
              rw [dfsSentinels_children_not_arr fs hs (by simp [hc])]
              rfl
            | .null =>
              rw [find_reading_list_children_bad fs _ hs hc (by simp) (by simp) (by simp)] at h
              exact Except.noConfusion h
            | .bool b =>
              rw [find_reading_list_children_bad fs _ hs hc (by simp) (by simp) (by simp)] at h
              exact Except.noConfusion h
            | .num m =>
              rw [find_reading_list_children_bad fs _ hs hc (by simp) (by simp) (by simp)] at h
              exact Except.noConfusion h
    · intro xs hxs r h
      match xs with
      | [] =>
        rw [frl_children] at h
        simp only [Except.ok.injEq] at h
        subst h
        rw [dfsSentinelsList]
        rfl
      | c :: cs =>
        rw [frl_children] at h
        have hszc : sizeOf c < n := by simp at hxs; omega
        have hszcs : sizeOf cs < n := by simp at hxs; omega
        rw [dfsSentinelsList, List.find?_append]
        cases hrc : find_reading_list c with
        | error e => rw [hrc] at h; exact Except.noConfusion h
        | ok rc =>
          rw [hrc] at h
          have hcc := (ih (sizeOf c) hszc).1 c (le_refl _) rc hrc
          by_cases hrs : rootSentinel c = true
          · simp only [hrs, if_true] at hcc
            have hdfs : dfsSentinels c = [(c.get? "Children").getD (.arr [])] := by
              match c with
              | .obj fs2 =>
                have hs2 : isReadingListTitle (lookupField fs2 "Title") = true := by
                  simpa [rootSentinel] using hrs
                rw [dfsSentinels_sentinel fs2 hs2]
                simp [JVal.get?]
              | .null | .bool _ | .num _ | .str _ | .arr _ => simp [rootSentinel] at hrs
            subst hcc
            by_cases ht : JVal.truthy ((c.get? "Children").getD (.arr [])) = true
            · simp only [ht, if_true] at h
              simp only [Except.ok.injEq] at h
              subst h
              simp [hdfs, List.find?, ht]
            · simp only [ht, Bool.false_eq_true, if_false] at h
              rw [(ih (sizeOf cs) hszcs).2 cs (le_refl _) r h]
              simp [hdfs, List.find?, ht, Option.or]
          · simp only [hrs, Bool.false_eq_true, if_false] at hcc
            subst hcc
            cases hfd : (dfsSentinels c).find? JVal.truthy with
            | none =>
              rw [hfd] at h
              rw [(ih (sizeOf cs) hszcs).2 cs (le_refl _) r h]
              simp [hfd, Option.or]
            | some v =>
              rw [hfd] at h
              have hv : JVal.truthy v = true := List.find?_some hfd
              simp only [hv, if_true] at h
              simp only [Except.ok.injEq] at h
              subst h
              simp [hfd, Option.or]

/-- Characterization corollary for `find_reading_list` itself. -/
theorem find_reading_list_ok (j : JVal) (r : Option JVal) (h : find_reading_list j = .ok r) :
    r = if rootSentinel j then some ((j.get? "Children").getD (.arr []))
        else (dfsSentinels j).find? JVal.truthy :=
  (frl_spec_aux (sizeOf j)).1 j (le_refl _) r h

/-- The structure used to separate the code's behaviour from the claimed one:
two sentinel folders, the first (in depth-first document order) with an empty
`Children` list, the second with one child. -/
def c3Struct : JVal :=
  .obj [("Children", .arr [
    .obj [("Title", .str "com.apple.ReadingList"), ("Children", .arr [])],
    .obj [("Title", .str "com.apple.ReadingList"), ("Children", .arr [.str "x"])]])]

theorem c3Struct_eval :
    find_reading_list c3Struct = .ok (some (.arr [.str "x"])) := by
  simp [c3Struct, find_reading_list, frl_children, lookupField, isReadingListTitle, JVal.truthy]

theorem dfs_ne_nil_of_rootSentinel (j : JVal) (h : rootSentinel j = true) :
    dfsSentinels j ≠ [] := by
  match j with
  | .obj fs =>
    rw [dfsSentinels_sentinel fs (by simpa [rootSentinel] using h)]
    simp
  | .null | .bool _ | .num _ | .str _ | .arr _ => simp [rootSentinel] at h

/-- A plist with no sentinel folder whose `Children` value is an integer:
the recursive search tries to iterate it and raises `TypeError`. -/
def c5Struct : JVal := .obj [("Children", .num 3)]

theorem extract_no_sentinel (plist : JVal) (hds : dfsSentinels plist = []) :
    extract_urls_from_safari_reading_list (.content plist) =
      Except.map (fun _ => []) (find_reading_list plist) := by
  cases hf : find_reading_list plist with
  | error e => simp [extract_urls_from_safari_reading_list, hf, Except.map]
  | ok r =>
    have hr := find_reading_list_ok plist r hf
    have hroot : rootSentinel plist = false := by
      by_contra hb
      rw [Bool.not_eq_false] at hb
      exact dfs_ne_nil_of_rootSentinel plist hb hds
    rw [hroot] at hr
    simp only [Bool.false_eq_true, if_false] at hr
    rw [hds] at hr
    simp only [List.find?] at hr
    subst hr
    simp [extract_urls_from_safari_reading_list, hf, Except.map]

/-! ### The json library: `json.dump(..., indent=2, ensure_ascii=False)`,
`json.dumps(...)` and `json.load`

`save_recipes` serializes with two-space indentation and non-ASCII preserved;
`generate_site.py` embeds a compact `json.dumps` projection and reads the
store back with `json.load`.  Floating-point numbers never occur in this
pipeline's values, so the number model is integral. -/

/-- Lowercase hexadecimal digit. -/
def hexDigit (n : Nat) : Char := if n < 10 then Char.ofNat (48 + n) else Char.ofNat (87 + n)

/-- Escaping of one character inside a JSON string, as the encoder does with
`ensure_ascii=False`: backslash, quote, the five short control escapes, other
control characters as lowercase `\u00xx`, and everything else (including
non-ASCII) kept as-is. -/
def jsonEscapeChar (c : Char) : String :=
  if c = '\\' then "\\\\"
  else if c = '"' then "\\\""
  else if c = '\x08' then "\\b"
  else if c = '\x0c' then "\\f"
  else if c = '\n' then "\\n"
  else if c = '\r' then "\\r"
  else if c = '\t' then "\\t"
  else if c.toNat < 0x20 then
    "\\u00" ++ String.singleton (hexDigit (c.toNat / 16)) ++ String.singleton (hexDigit (c.toNat % 16))
  else String.singleton c

/-- A JSON string literal: quoted and escaped. -/
def jsonQuote (s : String) : String :=
  "\"" ++ String.join (s.data.map jsonEscapeChar) ++ "\""

/-- Decimal digit character. -/
def digitChar (d : Nat) : Char := Char.ofNat (48 + d)

/-- Decimal digits of a natural number, most significant first, accumulated
onto `acc` (the classic repr loop, with enough fuel to cover every digit). -/
def natReprAux : Nat → Nat → List Char → List Char
  | 0, _, acc => acc
  | fuel + 1, n, acc =>
    if n < 10 then digitChar n :: acc else natReprAux fuel (n / 10) (digitChar (n % 10) :: acc)

/-- Decimal representation of a natural number (Python `str(int)` for `n ≥ 0`). -/
def natRepr (n : Nat) : String := ⟨natReprAux (n + 1) n []⟩

/-- Python `str(int)`: decimal with a leading minus for negatives. -/
def intRepr (n : Int) : String := if n < 0 then "-" ++ natRepr (-n).toNat else natRepr n.toNat

/-- A run of spaces (indentation). -/
def spaces (n : Nat) : String := String.mk (List.replicate n ' ')

mutual
/-- The indent-mode JSON encoder (`json.dump(..., indent=2)`): nested items
are placed on their own lines, indented two further spaces, with `,` item
separators at line ends and `": "` as the key separator. -/
def dumpVal (lvl : Nat) : JVal → String
  | .null => "null"
  | .bool true => "true"
  | .bool false => "false"
  | .num n => intRepr n
  | .str s => jsonQuote s
  | .arr [] => "[]"
  | .arr (x :: xs) =>
    "[\n" ++ spaces (lvl + 2) ++ dumpVal (lvl + 2) x ++ dumpItems (lvl + 2) xs ++
      "\n" ++ spaces lvl ++ "]"
  | .obj [] => "\x7b\x7d"
  | .obj ((k, v) :: fs) =>
    "\x7b\n" ++ spaces (lvl + 2) ++ jsonQuote k ++ ": " ++ dumpVal (lvl + 2) v ++
      dumpFields (lvl + 2) fs ++ "\n" ++ spaces lvl ++ "\x7d"
termination_by v => sizeOf v
decreasing_by
  all_goals (simp; try omega)

/-- Second and later array items in indent mode. -/
def dumpItems (lvl : Nat) : List JVal → String
  | [] => ""
  | x :: xs => ",\n" ++ spaces lvl ++ dumpVal lvl x ++ dumpItems lvl xs
termination_by xs => sizeOf xs
decreasing_by
  all_goals (simp; try omega)

/-- Second and later object fields in indent mode. -/
def dumpFields (lvl : Nat) : List (String × JVal) → String
  | [] => ""
  | (k, v) :: fs => ",\n" ++ spaces lvl ++ jsonQuote k ++ ": " ++ dumpVal lvl v ++ dumpFields lvl fs
termination_by fs => sizeOf fs
decreasing_by
  all_goals (simp; try omega)
end

/-- Embedding of `save_recipes(recipes, output_file)`: the text written to the
store file is the indent-2, non-ASCII-preserving serialization of the record
list. -/
def save_recipes (recipes : List JVal) : String := dumpVal 0 (.arr recipes)

mutual
/-- Compact `json.dumps` (default separators `", "` and `": "`). -/
def dumpC : JVal → String
  | .null => "null"
  | .bool true => "true"
  | .bool false => "false"
  | .num n => intRepr n
  | .str s => jsonQuote s
  | .arr [] => "[]"
  | .arr (x :: xs) => "[" ++ dumpC x ++ dumpCItems xs ++ "]"
  | .obj [] => "\x7b\x7d"
  | .obj ((k, v) :: fs) => "\x7b" ++ jsonQuote k ++ ": " ++ dumpC v ++ dumpCFields fs ++ "\x7d"
termination_by v => sizeOf v
decreasing_by
  all_goals (simp; try omega)

/-- Later items of a compact array. -/
def dumpCItems : List JVal → String
  | [] => ""
  | x :: xs => ", " ++ dumpC x ++ dumpCItems xs
termination_by xs => sizeOf xs
decreasing_by
  all_goals (simp; try omega)

/-- Later fields of a compact object. -/
def dumpCFields : List (String × JVal) → String
  | [] => ""
  | (k, v) :: fs => ", " ++ jsonQuote k ++ ": " ++ dumpC v ++ dumpCFields fs
termination_by fs => sizeOf fs
decreasing_by
  all_goals (simp; try omega)
end

/-- JSON whitespace as accepted by the decoder. -/
def isJsonWs (c : Char) : Bool := c = ' ' || c = '\t' || c = '\n' || c = '\r'

/-- Skip insignificant whitespace. -/
def skipWs (s : List Char) : List Char := s.dropWhile isJsonWs

/-- Value of a hexadecimal digit, if any. -/
def hexVal (c : Char) : Option Nat :=
  if '0' ≤ c ∧ c ≤ '9' then some (c.toNat - 48)
  else if 'a' ≤ c ∧ c ≤ 'f' then some (c.toNat - 87)
  else if 'A' ≤ c ∧ c ≤ 'F' then some (c.toNat - 55)
  else none

/-- Four hexadecimal digits (a `\uXXXX` payload). -/
def parseHex4 : List Char → Option (Nat × List Char)
  | c1 :: c2 :: c3 :: c4 :: rest =>
    match hexVal c1, hexVal c2, hexVal c3, hexVal c4 with
    | some h1, some h2, some h3, some h4 => some (((h1 * 16 + h2) * 16 + h3) * 16 + h4, rest)
    | _, _, _, _ => none
  | _ => none

/-- The digits of a JSON number after the optional minus: `0` or a
nonzero-led digit run.  A following fraction or exponent would make it a
float, which never occurs in this pipeline's documents and is out of the
integral model, so it is rejected here. -/
def parseIntCore (neg : Bool) (t : List Char) : Option (Int × List Char) :=
  match t with
  | c :: rest =>
    if c = '0' then
      match rest with
      | d :: _ =>
        if d.isDigit ∨ d = '.' ∨ d = 'e' ∨ d = 'E' then none
        else some ((if neg then -0 else 0), rest)
      | [] => some (0, [])
    else if c.isDigit then
      let ds := rest.takeWhile Char.isDigit
      let rest2 := rest.dropWhile Char.isDigit
      let m : Nat := (c :: ds).foldl (fun a d => a * 10 + (d.toNat - 48)) 0
      match rest2 with
      | d :: _ =>
        if d = '.' ∨ d = 'e' ∨ d = 'E' then none
        else some ((if neg then -(m : Int) else (m : Int)), rest2)
      | [] => some ((if neg then -(m : Int) else (m : Int)), [])
    else none
  | [] => none

/-- Lexing of a JSON number by the decoder's grammar: optional minus, then
the digit run. -/
def parseIntLex (s : List Char) : Option (Int × List Char) :=
  match s with
  | '-' :: t => parseIntCore true t
  | _ => parseIntCore false s

/-- A `\uXXXX` escape payload: four hex digits, with surrogate-pair
combination for the astral plane. -/
def parseUChar (rest : List Char) : Option (Char × List Char) :=
  match parseHex4 rest with
  | some (n, r2) =>
    if 0xD800 ≤ n ∧ n < 0xDC00 then
      match r2 with
      | '\\' :: 'u' :: r3 =>
        (match parseHex4 r3 with
        | some (m, r4) =>
          if 0xDC00 ≤ m ∧ m < 0xE000 then
            some (Char.ofNat (0x10000 + (n - 0xD800) * 0x400 + (m - 0xDC00)), r4)
          else none
        | none => none)
      | _ => none
    else if 0xDC00 ≤ n ∧ n < 0xE000 then none
    else some (Char.ofNat n, r2)
  | none => none

/-- Simple escape table of the decoder (`\u` handled separately). -/
def escChar : Char → Option Char
  | '"' => some '"'
  | '\\' => some '\\'
  | '/' => some '/'
  | 'b' => some '\x08'
  | 'f' => some '\x0c'
  | 'n' => some '\n'
  | 'r' => some '\r'
  | 't' => some '\t'
  | _ => none

/-- The body of a JSON string literal after the opening quote: plain
characters (raw control characters are rejected in strict mode), backslash
escapes, and `\uXXXX` with surrogate-pair combination.  `none` models a
decode error; the fuel strictly decreases on every recursive call. -/
def parseStrChars : Nat → List Char → Option (List Char × List Char)
  | 0, _ => none
  | fuel + 1, s =>
    match s with
    | [] => none
    | '"' :: rest => some ([], rest)
    | '\\' :: e :: rest =>
      (match e with
      | 'u' =>
        (match parseUChar rest with
        | some (ch, r2) =>
          (match parseStrChars fuel r2 with
          | some (cs, r3) => some (ch :: cs, r3)
          | none => none)
        | none => none)
      | _ =>
        (match escChar e with
        | some ch =>
          (match parseStrChars fuel rest with
          | some (cs, r3) => some (ch :: cs, r3)
          | none => none)
        | none => none))
    | c :: rest =>
      if c.toNat < 0x20 then none
      else
        match parseStrChars fuel rest with
        | some (cs, r3) => some (c :: cs, r3)
        | none => none

mutual
/-- Recursive-descent JSON value parser modelling `json.load` (strict mode),
with a fuel argument that strictly decreases on every call; `none` models a
decode error.  Lone-surrogate `\u` escapes and the nonstandard
`NaN`/`Infinity` floats that CPython would accept cannot occur in this
pipeline's documents and are rejected. -/
def parseVal : Nat → List Char → Option (JVal × List Char)
  | 0, _ => none
  | fuel + 1, s =>
    match skipWs s with
    | 'n' :: 'u' :: 'l' :: 'l' :: r => some (.null, r)
    | 't' :: 'r' :: 'u' :: 'e' :: r => some (.bool true, r)
    | 'f' :: 'a' :: 'l' :: 's' :: 'e' :: r => some (.bool false, r)
    | '"' :: r =>
      match parseStrChars fuel r with
      | some (cs, rest) => some (.str ⟨cs⟩, rest)
      | none => none
    | '[' :: r =>
      (match skipWs r with
      | ']' :: rest => some (.arr [], rest)
      | _ =>
        match parseArrLoop fuel (skipWs r) with
        | some (vs, rest) => some (.arr vs, rest)
        | none => none)
    | '\x7b' :: r =>
      (match skipWs r with
      | '\x7d' :: rest => some (.obj [], rest)
      | _ =>
        match parseObjLoop fuel (skipWs r) with
        | some (fs, rest) => some (.obj fs, rest)
        | none => none)
    | t =>
      match parseIntLex t with
      | some (n, rest) => some (.num n, rest)
      | none => none

/-- Comma-separated array items up to the closing bracket. -/
def parseArrLoop : Nat → List Char → Option (List JVal × List Char)
  | 0, _ => none
  | fuel + 1, s =>
    match parseVal fuel s with
    | some (v, rest) =>
      (match skipWs rest with
      | ',' :: r2 =>
        match parseArrLoop fuel r2 with
        | some (vs, r3) => some (v :: vs, r3)
        | none => none
      | ']' :: r2 => some ([v], r2)
      | _ => none)
    | none => none

/-- Comma-separated `"key": value` fields up to the closing brace. -/
def parseObjLoop : Nat → List Char → Option (List (String × JVal) × List Char)
  | 0, _ => none
  | fuel + 1, s =>
    match skipWs s with
    | '"' :: r =>
      (match parseStrChars fuel r with
      | some (kcs, r2) =>
        (match skipWs r2 with
        | ':' :: r3 =>
          (match parseVal fuel r3 with
          | some (v, r4) =>
            (match skipWs r4 with
            | ',' :: r5 =>
              (match parseObjLoop fuel r5 with
              | some (fs, r6) => some ((⟨kcs⟩, v) :: fs, r6)
              | none => none)
            | '\x7d' :: r5 => some ([(⟨kcs⟩, v)], r5)
            | _ => none)
          | none => none)
        | _ => none)
      | none => none)
    | _ => none

end


/-- Embedding of `json.load`: parse one document and require only whitespace
after it.  `none` models a raised `JSONDecodeError`. -/
def json_load (text : String) : Option JVal :=
  match parseVal (text.data.length + 1) text.data with
  | some (v, rest) => if (skipWs rest).isEmpty then some v else none
  | none => none

/-! ### generate_site.py: loading and filtering the store -/

/-- State of the store file `data/recipes.json` when the generator runs. -/
inductive StoreFile where
  | absent : StoreFile
  | content : String → StoreFile

/-- The list comprehension `[r for r in recipes if r.get('scraped_successfully')]`
over a parsed JSON array: calling `.get` on a non-dict element raises
`AttributeError` (uncaught). -/
def successFilter : List JVal → Except Unit (List JVal)
  | [] => .ok []
  | r :: rest =>
    match r with
    | .obj fs =>
      match successFilter rest with
      | .error e => .error e
      | .ok tl =>
        .ok (if ((lookupField fs "scraped_successfully").getD .null).truthy then .obj fs :: tl else tl)
    | _ => .error ()

/-- Embedding of `load_recipes()`: an absent file yields `[]`; otherwise the
text is parsed by `json.load` (a parse failure raises, uncaught) and filtered
to the records whose `scraped_successfully` is truthy.  A top-level dict or
string iterates over keys resp. characters, which immediately fail `.get`
unless there are none; other non-list documents raise `TypeError`. -/
def load_recipes : StoreFile → Except Unit (List JVal)
  | .absent => .ok []
  | .content text =>
    match json_load text with
    | none => .error ()
    | some (.arr rs) => successFilter rs
    | some (.obj fs) => if fs.isEmpty then .ok [] else .error ()
    | some (.str s) => if s.data.isEmpty then .ok [] else .error ()
    | some _ => .error ()

/-! ### generate_site.py: card and detail rendering -/

/-- The fixed placeholder image URL used by recipe cards. -/
def placeholder400 : String := "https://via.placeholder.com/400x300?text=No+Image"

/-- The fixed placeholder image URL used by the detail view. -/
def placeholder800 : String := "https://via.placeholder.com/800x600?text=No+Image"

/-- Card local `image_url = recipe.get('image') or '...placeholder...'`. -/
def card_image_url (recipe : JVal) : JVal := pyOr (pyGet recipe "image") (.str placeholder400)

/-- Card local `title = recipe.get('title', 'Untitled Recipe')`. -/
def card_title (recipe : JVal) : JVal := pyGetD recipe "title" (.str "Untitled Recipe")

/-- Card local `host = recipe.get('host', '')`. -/
def card_host (recipe : JVal) : JVal := pyGetD recipe "host" (.str "")

/-- Card local `total_time = recipe.get('total_time', 0)`. -/
def card_total_time (recipe : JVal) : JVal := pyGetD recipe "total_time" (.num 0)

/-- Card local `yields = recipe.get('yields', '')`. -/
def card_yields (recipe : JVal) : JVal := pyGetD recipe "yields" (.str "")

/-- Card local `time_str = f"{total_time} min" if total_time else ""`. -/
def card_time_str (recipe : JVal) : String :=
  if (card_total_time recipe).truthy then pyStr (card_total_time recipe) ++ " min" else ""

/-- The card's conditional time badge: rendered only when `time_str` is
nonempty. -/
def card_time_span (recipe : JVal) : String :=
  if card_time_str recipe ≠ "" then
    "<span class=\"recipe-time\">⏱️ " ++ card_time_str recipe ++ "</span>"
  else ""

/-- The card's conditional yields badge: rendered only when `yields` is
truthy. -/
def card_yields_span (recipe : JVal) : String :=
  if (card_yields recipe).truthy then
    "<span class=\"recipe-yields\">🍽️ " ++ pyStr (card_yields recipe) ++ "</span>"
  else ""

/-- Embedding of `generate_recipe_card_html(recipe, index)`: the f-string of
the source with each interpolation slot filled. -/
def generate_recipe_card_html (recipe : JVal) (index : Nat) : String :=
  "\n    <div class=\"recipe-card\" data-index=\"" ++ toString index ++ "\">\n        <img src=\"" ++
    pyStr (card_image_url recipe) ++ "\" alt=\"" ++ pyStr (card_title recipe) ++
    "\" loading=\"lazy\" onerror=\"this.src=\x27https://via.placeholder.com/400x300?text=No+Image\x27\">\n        <div class=\"recipe-card-content\">\n            <h3>" ++
    pyStr (card_title recipe) ++
    "</h3>\n            <div class=\"recipe-meta\">\n                <span class=\"recipe-source\">" ++
    pyStr (card_host recipe) ++ "</span>\n                " ++ card_time_span recipe ++
    "\n                " ++ card_yields_span recipe ++
    "\n            </div>\n        </div>\n    </div>\n    "

/-- Python iteration over a value (`for x in v` / generator comprehension):
lists yield their items, strings their one-character substrings, dicts their
keys; anything else raises `TypeError`. -/
def pyIter : JVal → Except Unit (List JVal)
  | .arr xs => .ok xs
  | .str s => .ok (s.data.map fun c => .str (String.singleton c))
  | .obj fs => .ok (fs.map fun kv => .str kv.1)
  | _ => .error ()

/-- Detail local `ingredients_html`: `''.join(f'<li>{ing}</li>' for ing in
recipe.get('ingredients', []))`. -/
def ingredients_html (recipe : JVal) : Except Unit String :=
  match pyIter (pyGetD recipe "ingredients" (.arr [])) with
  | .error e => .error e
  | .ok items => .ok (String.join (items.map fun ing => "<li>" ++ pyStr ing ++ "</li>"))

/-- Detail view title slot `recipe.get('title', 'Untitled Recipe')`. -/
def detail_title (recipe : JVal) : JVal := pyGetD recipe "title" (.str "Untitled Recipe")

/-- Detail image slot `recipe.get('image') or '...placeholder...'`. -/
def detail_image_url (recipe : JVal) : JVal := pyOr (pyGet recipe "image") (.str placeholder800)

/-- Detail image alt text `recipe.get('title', '')`. -/
def detail_alt_title (recipe : JVal) : JVal := pyGetD recipe "title" (.str "")

/-- The detail view's conditional Time info item, rendered only when
`recipe.get('total_time')` is truthy. -/
def detail_time_item (recipe : JVal) : String :=
  if (pyGet recipe "total_time").truthy then
    "<div class=\"info-item\"><strong>Time:</strong> " ++ pyStr (pyGet recipe "total_time") ++
      " min</div>"
  else ""

/-- The detail view's conditional Servings info item. -/
def detail_yields_item (recipe : JVal) : String :=
  if (pyGet recipe "yields").truthy then
    "<div class=\"info-item\"><strong>Servings:</strong> " ++ pyStr (pyGet recipe "yields") ++
      "</div>"
  else ""

/-- Python `!=` between a value and a string literal. -/
def pyEqStr (v : JVal) (s : String) : Bool :=
  match v with
  | .str t => t = s
  | _ => false

/-- The detail view's conditional Author info item: rendered only when
`recipe.get('author')` is truthy and not equal to the string `"Unknown"`. -/
def detail_author_item (recipe : JVal) : String :=
  if (pyGet recipe "author").truthy && !pyEqStr (pyGet recipe "author") "Unknown" then
    "<div class=\"info-item\"><strong>Author:</strong> " ++ pyStr (pyGet recipe "author") ++
      "</div>"
  else ""

/-- Detail instructions: `recipe.get('instructions', 'No instructions
available').replace(chr(10), '<br><br>')` — `.replace` on a non-string value
raises `AttributeError`. -/
def detail_instructions (recipe : JVal) : Except Unit String :=
  match pyGetD recipe "instructions" (.str "No instructions available") with
  | .str s => .ok (s.replace "\n" "<br><br>")
  | _ => .error ()

/-- Embedding of `generate_recipe_detail_html(recipe, index)`: the
ingredients iteration happens first (line 59), the rest is the f-string with
each slot filled; `.replace` on a non-string instructions value raises. -/
def generate_recipe_detail_html (recipe : JVal) (index : Nat) : Except Unit String :=
  match ingredients_html recipe with
  | .error e => .error e
  | .ok ih =>
    match detail_instructions recipe with
    | .error e => .error e
    | .ok instr => .ok (
      "\n    <div class=\"recipe-detail\" id=\"recipe-" ++ toString index ++
      "\" style=\"display: none;\">\n        <button class=\"back-btn\" onclick=\"closeRecipe()\">← Back</button>\n        <h2>" ++
      pyStr (detail_title recipe) ++
      "</h2>\n        \n        <div class=\"recipe-image-container\">\n            <img src=\"" ++
      pyStr (detail_image_url recipe) ++ "\" \n                 alt=\"" ++
      pyStr (detail_alt_title recipe) ++
      "\"\n                 onerror=\"this.src=\x27https://via.placeholder.com/800x600?text=No+Image\x27\">\n        </div>\n        \n        <div class=\"recipe-info\">\n            " ++
      detail_time_item recipe ++ "\n            " ++ detail_yields_item recipe ++
      "\n            " ++ detail_author_item recipe ++
      "\n        </div>\n        \n        <div class=\"recipe-section\">\n            <h3>Ingredients</h3>\n            <ul class=\"ingredients-list\">\n                " ++
      ih ++
      "\n            </ul>\n        </div>\n        \n        <div class=\"recipe-section\">\n            <h3>Instructions</h3>\n            <div class=\"instructions\">\n                " ++
      instr ++
      "\n            </div>\n        </div>\n        \n        <div class=\"recipe-footer\">\n            <a href=\"" ++
      pyStr (pyGet recipe "url") ++
      "\" target=\"_blank\" class=\"source-link\">View Original Recipe →</a>\n        </div>\n    </div>\n    ")

/-! ### generate_site.py: the page template of `generate_html` -/

/-- Static segment 0 of the page template f-string. -/
def page_seg0 : String :=
  "<!DOCTYPE html>\n<html lang=\"en\">\n<head>\n    <meta charset=\"UTF-8\">\n    <meta name=\"viewport\" content=\"width=device-width, initial-scale=1.0\">\n    <title>My Recipe Collection</title>\n    <meta name=\"description\" content=\"Personal recipe collection - "

/-- Static segment 1 of the page template f-string. -/
def page_seg1 : String :=
  " recipes\">\n    \n    <style>\n        * \x7b\n            margin: 0;\n            padding: 0;\n            box-sizing: border-box;\n        \x7d\n        \n        :root \x7b\n            --primary: #2563eb;\n            --primary-dark: #1e40af;\n            --bg: #f8fafc;\n            --card-bg: #ffffff;\n            --text: #1e293b;\n            --text-light: #64748b;\n            --border: #e2e8f0;\n            --shadow: 0 1px 3px rgba(0,0,0,0.1);\n            --shadow-lg: 0 10px 25px rgba(0,0,0,0.1);\n        \x7d\n        \n        body \x7b\n            font-family: -apple-system, BlinkMacSystemFont, \x27Segoe UI\x27, Roboto, Oxygen, Ubuntu, Cantarell, sans-serif;\n            background: var(--bg);\n            color: var(--text);\n            line-height: 1.6;\n        \x7d\n        \n        .header \x7b\n            background: var(--card-bg);\n            padding: 1rem;\n            box-shadow: var(--shadow);\n            position: sticky;\n            top: 0;\n            z-index: 100;\n        \x7d\n        \n        .header-content \x7b\n            max-width: 1200px;\n            margin: 0 auto;\n        \x7d\n        \n        h1 \x7b\n            font-size: 1.5rem;\n            margin-bottom: 0.5rem;\n        \x7d\n        \n        .search-bar \x7b\n            width: 100%;\n            padding: 0.75rem;\n            border: 1px solid var(--border);\n            border-radius: 8px;\n            font-size: 1rem;\n            margin-top: 0.5rem;\n        \x7d\n        \n        .search-bar:focus \x7b\n            outline: none;\n            border-color: var(--primary);\n        \x7d\n        \n        .recipe-count \x7b\n            color: var(--text-light);\n            font-size: 0.875rem;\n            margin-top: 0.5rem;\n        \x7d\n        \n        .container \x7b\n            max-width: 1200px;\n            margin: 0 auto;\n            padding: 1rem;\n        \x7d\n        \n        .recipes-grid \x7b\n            display: grid;\n            grid-template-columns: repeat(auto-fill, minmax(300px, 1fr));\n            gap: 1.5rem;\n            margin-top: 1rem;\n        \x7d\n        \n        .recipe-card \x7b\n            background: var(--card-bg);\n            border-radius: 12px;\n            overflow: hidden;\n            box-shadow: var(--shadow);\n            cursor: pointer;\n            transition: transform 0.2s, box-shadow 0.2s;\n        \x7d\n        \n        .recipe-card:hover \x7b\n            transform: translateY(-2px);\n            box-shadow: var(--shadow-lg);\n        \x7d\n        \n        .recipe-card img \x7b\n            width: 100%;\n            height: 200px;\n            object-fit: cover;\n        \x7d\n        \n        .recipe-card-content \x7b\n            padding: 1rem;\n        \x7d\n        \n        .recipe-card h3 \x7b\n            font-size: 1.125rem;\n            margin-bottom: 0.5rem;\n            color: var(--text);\n        \x7d\n        \n        .recipe-meta \x7b\n            display: flex;\n            flex-wrap: wrap;\n            gap: 0.5rem;\n            font-size: 0.875rem;\n            color: var(--text-light);\n        \x7d\n        \n        .recipe-source \x7b\n            font-weight: 500;\n        \x7d\n        \n        .recipe-detail \x7b\n            max-width: 800px;\n            margin: 0 auto;\n            background: var(--card-bg);\n            border-radius: 12px;\n            padding: 2rem;\n            box-shadow: var(--shadow-lg);\n        \x7d\n        \n        .back-btn \x7b\n            background: var(--primary);\n            color: white;\n            border: none;\n            padding: 0.5rem 1rem;\n            border-radius: 8px;\n            cursor: pointer;\n            font-size: 1rem;\n            margin-bottom: 1rem;\n        \x7d\n        \n        .back-btn:hover \x7b\n            background: var(--primary-dark);\n        \x7d\n        \n        .recipe-detail h2 \x7b\n            font-size: 2rem;\n            margin-bottom: 1rem;\n        \x7d\n        \n        .recipe-image-container \x7b\n            margin: 1.5rem 0;\n            border-radius: 12px;\n            overflow: hidden;\n        \x7d\n        \n        .recipe-image-container img \x7b\n            width: 100%;\n            height: auto;\n            display: block;\n        \x7d\n        \n        .recipe-info \x7b\n            display: flex;\n            flex-wrap: wrap;\n            gap: 1rem;\n            padding: 1rem;\n            background: var(--bg);\n            border-radius: 8px;\n            margin: 1.5rem 0;\n        \x7d\n        \n        .info-item \x7b\n            flex: 1;\n            min-width: 150px;\n        \x7d\n        \n        .recipe-section \x7b\n            margin: 2rem 0;\n        \x7d\n        \n        .recipe-section h3 \x7b\n            font-size: 1.5rem;\n            margin-bottom: 1rem;\n            color: var(--text);\n        \x7d\n        \n        .ingredients-list \x7b\n            list-style: none;\n            padding: 0;\n        \x7d\n        \n        .ingredients-list li \x7b\n            padding: 0.5rem 0;\n            border-bottom: 1px solid var(--border);\n        \x7d\n        \n        .ingredients-list li:last-child \x7b\n            border-bottom: none;\n        \x7d\n        \n        .instructions \x7b\n            line-height: 1.8;\n            font-size: 1.05rem;\n        \x7d\n        \n        .recipe-footer \x7b\n            margin-top: 2rem;\n            padding-top: 1rem;\n            border-top: 1px solid var(--border);\n        \x7d\n        \n        .source-link \x7b\n            color: var(--primary);\n            text-decoration: none;\n            font-weight: 500;\n        \x7d\n        \n        .source-link:hover \x7b\n            text-decoration: underline;\n        \x7d\n        \n        .no-results \x7b\n            text-align: center;\n            padding: 4rem 1rem;\n            color: var(--text-light);\n        \x7d\n        \n        @media (max-width: 768px) \x7b\n            .recipes-grid \x7b\n                grid-template-columns: 1fr;\n            \x7d\n            \n            .recipe-detail \x7b\n                padding: 1rem;\n            \x7d\n            \n            .recipe-detail h2 \x7b\n                font-size: 1.5rem;\n            \x7d\n        \x7d\n    </style>\n</head>\n<body>\n    <header class=\"header\">\n        <div class=\"header-content\">\n            <h1>🍳 My Recipe Collection</h1>\n            <input type=\"text\" id=\"searchInput\" class=\"search-bar\" placeholder=\"Search recipes...\">\n            <div class=\"recipe-count\" id=\"recipeCount\">"

/-- Static segment 2 of the page template f-string. -/
def page_seg2 : String :=
  " recipes</div>\n        </div>\n    </header>\n    \n    <div class=\"container\">\n        <div class=\"recipes-grid\" id=\"recipesGrid\">\n            "

/-- Static segment 3 of the page template f-string. -/
def page_seg3 : String :=
  "\n        </div>\n        \n        <div id=\"recipeDetail\" style=\"display: none;\">\n            "

/-- Static segment 4 of the page template f-string. -/
def page_seg4 : String :=
  "\n        </div>\n        \n        <div class=\"no-results\" id=\"noResults\" style=\"display: none;\">\n            <h2>No recipes found</h2>\n            <p>Try a different search term</p>\n        </div>\n    </div>\n    \n    <script>\n        const recipesData = "

/-- Static segment 5 of the page template f-string. -/
def page_seg5 : String :=
  ";\n        \n        // Search functionality\n        const searchInput = document.getElementById(\x27searchInput\x27);\n        const recipesGrid = document.getElementById(\x27recipesGrid\x27);\n        const recipeCards = document.querySelectorAll(\x27.recipe-card\x27);\n        const recipeCount = document.getElementById(\x27recipeCount\x27);\n        const noResults = document.getElementById(\x27noResults\x27);\n        \n        searchInput.addEventListener(\x27input\x27, (e) => \x7b\n            const searchTerm = e.target.value.toLowerCase();\n            let visibleCount = 0;\n            \n            recipeCards.forEach((card, index) => \x7b\n                const recipe = recipesData[index];\n                const searchableText = [\n                    recipe.title,\n                    recipe.host,\n                    recipe.category || \x27\x27,\n                    recipe.cuisine || \x27\x27,\n                    ...recipe.ingredients\n                ].join(\x27 \x27).toLowerCase();\n                \n                if (searchableText.includes(searchTerm)) \x7b\n                    card.style.display = \x27block\x27;\n                    visibleCount++;\n                \x7d else \x7b\n                    card.style.display = \x27none\x27;\n                \x7d\n            \x7d);\n            \n            recipeCount.textContent = \x60$\x7bvisibleCount\x7d recipe$\x7bvisibleCount !== 1 ? \x27s\x27 : \x27\x27\x7d\x60;\n            noResults.style.display = visibleCount === 0 ? \x27block\x27 : \x27none\x27;\n            recipesGrid.style.display = visibleCount === 0 ? \x27none\x27 : \x27grid\x27;\n        \x7d);\n        \n        // Recipe card click handlers\n        recipeCards.forEach((card) => \x7b\n            card.addEventListener(\x27click\x27, () => \x7b\n                const index = card.dataset.index;\n                openRecipe(index);\n            \x7d);\n        \x7d);\n        \n        function openRecipe(index) \x7b\n            recipesGrid.style.display = \x27none\x27;\n            document.getElementById(\x27recipeDetail\x27).style.display = \x27block\x27;\n            document.getElementById(\x60recipe-$\x7bindex\x7d\x60).style.display = \x27block\x27;\n            window.scrollTo(0, 0);\n        \x7d\n        \n        function closeRecipe() \x7b\n            document.getElementById(\x27recipeDetail\x27).style.display = \x27none\x27;\n            document.querySelectorAll(\x27.recipe-detail\x27).forEach(detail => \x7b\n                detail.style.display = \x27none\x27;\n            \x7d);\n            recipesGrid.style.display = \x27grid\x27;\n        \x7d\n        \n        // Update last generated time\n        console.log(\x27Site generated: "

/-- Static segment 6 of the page template f-string. -/
def page_seg6 : String :=
  "\x27);\n    </script>\n</body>\n</html>"

/-- The embedded search-data projection (lines 106-112):
`json.dumps([{'title': ..., 'host': ..., 'ingredients': ..., 'category': ...,
'cuisine': ...} for r in recipes])`. -/
def recipes_json_py (recipes : List JVal) : String :=
  dumpC (.arr (recipes.map fun r => .obj [
    ("title", pyGetD r "title" (.str "")),
    ("host", pyGetD r "host" (.str "")),
    ("ingredients", pyGetD r "ingredients" (.arr [])),
    ("category", pyGetD r "category" (.str "")),
    ("cuisine", pyGetD r "cuisine" (.str ""))]))

/-- `'\n'.join(generate_recipe_card_html(r, i) for i, r in enumerate(recipes))`. -/
def recipe_cards_html (recipes : List JVal) : String :=
  String.intercalate "\n" (recipes.enum.map fun p => generate_recipe_card_html p.2 p.1)

/-- `'\n'.join(generate_recipe_detail_html(r, i) for i, r in enumerate(recipes))`. -/
def recipe_details_html (recipes : List JVal) : Except Unit String :=
  match recipes.enum.mapM (fun p => generate_recipe_detail_html p.2 p.1) with
  | .error e => .error e
  | .ok parts => .ok (String.intercalate "\n" parts)

/-- Embedding of `generate_html(recipes)`: the template with the six
interpolation slots filled.  `now` stands for `datetime.now().isoformat()`,
an input of the run. -/
def generate_html (now : String) (recipes : List JVal) : Except Unit String :=
  match recipe_details_html recipes with
  | .error e => .error e
  | .ok details => .ok (
    page_seg0 ++ natRepr recipes.length ++ page_seg1 ++ natRepr recipes.length ++ page_seg2 ++
    recipe_cards_html recipes ++ page_seg3 ++ details ++ page_seg4 ++
    recipes_json_py recipes ++ page_seg5 ++ now ++ page_seg6)

/-- Embedding of `generate_site.py main()`: load and filter the store; if the
result is empty, report and exit without writing (`.ok none`); otherwise
write `index.html` with the generated page (`.ok (some html)`). -/
def generate_site_main (now : String) (store : StoreFile) : Except Unit (Option String) :=
  match load_recipes store with
  | .error e => .error e
  | .ok recipes =>
    if recipes.isEmpty then .ok none
    else
      match generate_html now recipes with
      | .error e => .error e
      | .ok html => .ok (some html)

/-! ### generate_site.py: the embedded client-side search script
(lines 398-423), modelled language-neutrally over the parsed `recipesData`
entries. -/

/-- Lowercasing as used by the script (`.toLowerCase()` on the query and the
haystack): pointwise `Char.toLower`. -/
def lowerStr (s : String) : String := ⟨s.data.map Char.toLower⟩

/-- JavaScript truthiness (`category || ''`): note that unlike Python, empty
arrays and objects are truthy. -/
def jsTruthy : JVal → Bool
  | .null => false
  | .bool b => b
  | .num n => n != 0
  | .str s => s ≠ ""
  | .arr _ => true
  | .obj _ => true

/-- JavaScript `a || b`. -/
def jsOr (a b : JVal) : JVal := if jsTruthy a then a else b

/-- JavaScript property access `o.k`; a missing property (undefined) and null
behave identically in this script (both falsy, both empty in `join`). -/
def jsProp (o : JVal) (k : String) : JVal :=
  match o with
  | .obj fs => (lookupField fs k).getD .null
  | _ => .null

mutual
/-- The string `Array.prototype.join` produces for one element: null and
undefined become empty, arrays join recursively with commas. -/
def jsJoinElem : JVal → String
  | .null => ""
  | .bool true => "true"
  | .bool false => "false"
  | .num n => intRepr n
  | .str s => s
  | .arr xs => jsJoinList xs
  | .obj _ => "[object Object]"
termination_by v => sizeOf v
decreasing_by
  all_goals (simp; try omega)

/-- Comma-joined rendering of an array's elements. -/
def jsJoinList : List JVal → String
  | [] => ""
  | [x] => jsJoinElem x
  | x :: xs => jsJoinElem x ++ "," ++ jsJoinList xs
termination_by xs => sizeOf xs
decreasing_by
  all_goals (simp; try omega)
end

/-- JavaScript spread `...v`: arrays spread to their elements, strings to
their characters; spreading a non-iterable raises `TypeError`. -/
def jsSpread : JVal → Except Unit (List JVal)
  | .arr xs => .ok xs
  | .str s => .ok (s.data.map fun c => .str (String.singleton c))
  | _ => .error ()

/-- Naive substring test (JavaScript `String.prototype.includes`). -/
def containsSub : List Char → List Char → Bool
  | [], needle => needle.isPrefixOf []
  | a :: t, needle => needle.isPrefixOf (a :: t) || containsSub t needle

/-- String containment: `hay.includes(needle)`. -/
def strContains (hay needle : String) : Bool := containsSub hay.data needle.data

/-- The per-card `searchableText` of the input handler: `[recipe.title,
recipe.host, recipe.category || '', recipe.cuisine || '',
...recipe.ingredients].join(' ').toLowerCase()`. -/
def searchableText (recipe : JVal) : Except Unit String :=
  match jsSpread (jsProp recipe "ingredients") with
  | .error e => .error e
  | .ok ings => .ok (lowerStr (String.intercalate " "
      (([jsProp recipe "title", jsProp recipe "host",
         jsOr (jsProp recipe "category") (.str ""),
         jsOr (jsProp recipe "cuisine") (.str "")] ++ ings).map jsJoinElem)))

/-- The DOM state the input handler leaves behind: one `style.display` per
card, the `visibleCount` counter, the count label text, and the `display`
of the no-results placeholder and of the grid. -/
structure SearchUIState where
  cardDisplay : List String
  visibleCount : Nat
  countText : String
  noResultsDisplay : String
  gridDisplay : String

/-- Embedding of the `searchInput` input-event handler: lowercase the query,
test each card's haystack with `includes`, show/hide cards, update the count
label and toggle the placeholder and the grid. -/
def searchHandler (recipesData : List JVal) (value : String) : Except Unit SearchUIState :=
  let searchTerm := lowerStr value
  match recipesData.mapM searchableText with
  | .error e => .error e
  | .ok texts =>
    let vis := texts.map fun t => strContains t searchTerm
    let visibleCount := vis.count true
    .ok { cardDisplay := vis.map fun b => if b then "block" else "none"
          visibleCount := visibleCount
          countText := natRepr visibleCount ++ " recipe" ++ (if visibleCount ≠ 1 then "s" else "")
          noResultsDisplay := if visibleCount = 0 then "block" else "none"
          gridDisplay := if visibleCount = 0 then "none" else "grid" }

/-- Specification-side haystack, following the claim's words: the space-joined
concatenation of title, host, category, cuisine and all ingredients,
lowercased. -/
def specHaystack (title host category cuisine : String) (ingredients : List String) : String :=
  lowerStr (String.intercalate " " ([title, host, category, cuisine] ++ ingredients))

/-- A `recipesData` entry as the embedded JSON produces it for a record with
string title/host, string-or-null category/cuisine, and a string list of
ingredients. -/
def mkSearchEntry (title host : String) (category cuisine : Option String)
    (ingredients : List String) : JVal :=
  .obj [("title", .str title), ("host", .str host),
        ("ingredients", .arr (ingredients.map .str)),
        ("category", (category.map JVal.str).getD .null),
        ("cuisine", (cuisine.map JVal.str).getD .null)]

/-! ### Substring machinery for `strContains` -/

theorem containsSub_infix_iff (hay needle : List Char) :
    containsSub hay needle = true ↔ needle <:+: hay := by
  induction hay with
  | nil =>
    rw [containsSub]
    simp
  | cons a t ih =>
    rw [containsSub]
    simp only [Bool.or_eq_true, List.isPrefixOf_iff_prefix, ih, List.infix_cons_iff]

theorem strContains_of_infix {hay needle : String} (h : needle.data <:+: hay.data) :
    strContains hay needle = true :=
  (containsSub_infix_iff hay.data needle.data).2 h

theorem strContains_self (s : String) : strContains s s = true :=
  strContains_of_infix (List.infix_refl _)

theorem strContains_append_of_left (x y n : String) (h : strContains x n = true) :
    strContains (x ++ y) n = true := by
  apply strContains_of_infix
  rw [String.data_append]
  exact ((containsSub_infix_iff _ _).1 h).trans (List.infix_append [] _ _)

theorem strContains_append_of_self_left (n y : String) : strContains (n ++ y) n = true := by
  apply strContains_of_infix
  rw [String.data_append]
  exact ⟨[], y.data, rfl⟩

theorem strContains_append_of_right (x y n : String) (h : strContains y n = true) :
    strContains (x ++ y) n = true := by
  apply strContains_of_infix
  rw [String.data_append]
  have h2 := (containsSub_infix_iff _ _).1 h
  obtain ⟨l, r, hl⟩ := h2
  exact ⟨x.data ++ l, r, by rw [← hl]; simp⟩

/-! ### Claim theorems -/

/-- C1: for every input bookmark sequence of length N, `scrape_all_recipes`
produces exactly N records, in input order, one `scrape_recipe` result per
input; a per-item exception becomes a failed record (with
`scraped_successfully` false and the exception text in `error`) and never
aborts the batch. -/
theorem claim_C1_fetcher_batch (env : Nat → FetchResult) (bs : List Bookmark) :
    (scrape_all_recipes env bs).length = bs.length ∧
    ∀ i b, bs[i]? = some b →
      (scrape_all_recipes env bs)[i]? = some (scrape_recipe b.url b.bookmark_title (env i)) ∧
      ∀ msg, env i = .exn msg →
        ∃ rec, (scrape_all_recipes env bs)[i]? = some rec ∧
          rec.get? "scraped_successfully" = some (.bool false) ∧
          rec.get? "error" = some (.str msg) := by
  refine ⟨scrape_all_go_length env 0 bs, ?_⟩
  intro i b hb
  have hget := scrape_all_go_getElem? env 0 bs i b hb
  rw [Nat.zero_add] at hget
  refine ⟨hget, ?_⟩
  intro msg hmsg
  refine ⟨scrape_recipe b.url b.bookmark_title (env i), hget, ?_, ?_⟩
  · rw [hmsg]
    simp [scrape_recipe, JVal.get?, lookupField]
  · rw [hmsg]
    simp [scrape_recipe, JVal.get?, lookupField]

/-- A fetch environment in which every request raises. -/
def c1EnvW : Nat → FetchResult := fun _ => .exn "boom"

/-- A one-element bookmark batch. -/
def c1BookW : Bookmark := ⟨"https://example.com/a", "Tarte"⟩

/-- Witness for C1 at a concrete failing batch of length one. -/
theorem claim_C1_witness :
    (scrape_all_recipes c1EnvW [c1BookW]).length = 1 ∧
    (scrape_all_recipes c1EnvW [c1BookW])[0]? =
      some (scrape_recipe c1BookW.url c1BookW.bookmark_title (.exn "boom")) :=
  ⟨(claim_C1_fetcher_batch c1EnvW [c1BookW]).1,
   ((claim_C1_fetcher_batch c1EnvW [c1BookW]).2 0 c1BookW rfl).1⟩

/-- C2: a record built from a caught exception has exactly the six fields
`title`, `url`, `bookmark_title`, `host`, `scraped_successfully`, `error`,
with `error` the exception text, `host` the domain parsed directly from the
URL, `title` the bookmark title falling back to "Unknown Recipe", and no
`ingredients` (or any other recipe-content) field. -/
theorem claim_C2_failed_record_shape (url bookmark_title msg : String) :
    (scrape_recipe url bookmark_title (.exn msg)).get? "title" =
      some (.str (if bookmark_title = "" then "Unknown Recipe" else bookmark_title)) ∧
    (scrape_recipe url bookmark_title (.exn msg)).get? "url" = some (.str url) ∧
    (scrape_recipe url bookmark_title (.exn msg)).get? "bookmark_title" =
      some (.str bookmark_title) ∧
    (scrape_recipe url bookmark_title (.exn msg)).get? "host" =
      some (.str (urlparse_netloc url)) ∧
    (scrape_recipe url bookmark_title (.exn msg)).get? "scraped_successfully" =
      some (.bool false) ∧
    (scrape_recipe url bookmark_title (.exn msg)).get? "error" = some (.str msg) ∧
    (∀ k v, (scrape_recipe url bookmark_title (.exn msg)).get? k = some v →
      k ∈ ["title", "url", "bookmark_title", "host", "scraped_successfully", "error"]) ∧
    (scrape_recipe url bookmark_title (.exn msg)).get? "ingredients" = none := by
  have hfields : ∀ k v, (scrape_recipe url bookmark_title (.exn msg)).get? k = some v →
      k ∈ ["title", "url", "bookmark_title", "host", "scraped_successfully", "error"] := by
    intro k v h
    simp only [scrape_recipe, JVal.get?, lookupField] at h
    by_cases h1 : "title" = k
    · rw [← h1]; simp
    rw [if_neg h1] at h
    by_cases h2 : "url" = k
    · rw [← h2]; simp
    rw [if_neg h2] at h
    by_cases h3 : "bookmark_title" = k
    · rw [← h3]; simp
    rw [if_neg h3] at h
    by_cases h4 : "host" = k
    · rw [← h4]; simp
    rw [if_neg h4] at h
    by_cases h5 : "scraped_successfully" = k
    · rw [← h5]; simp
    rw [if_neg h5] at h
    by_cases h6 : "error" = k
    · rw [← h6]; simp
    rw [if_neg h6] at h
    exact absurd h (by simp)
  refine ⟨?_, ?_, ?_, ?_, ?_, ?_, hfields, ?_⟩
  all_goals simp [scrape_recipe, JVal.get?, lookupField]

/-- Witness for C2's field-exhaustiveness part at a concrete failed record. -/
theorem claim_C2_witness :
    "url" ∈ ["title", "url", "bookmark_title", "host", "scraped_successfully", "error"] :=
  (claim_C2_failed_record_shape "https://example.com/a" "T" "boom").2.2.2.2.2.2.1
    "url" (.str "https://example.com/a") (by simp [scrape_recipe, JVal.get?, lookupField])

/-- C3 (counterexample): the claim says the search returns the children of
the first sentinel folder in depth-first document order; on `c3Struct` the
first such folder has empty children, and the code instead returns the second
folder's children, because the loop's `if result:` filter skips falsy (empty)
results. -/
theorem claim_C3_counterexample :
    find_reading_list c3Struct = .ok (some (.arr [.str "x"])) ∧
    (dfsSentinels c3Struct).head? = some (.arr []) ∧
    (some (.arr [.str "x"]) : Option JVal) ≠ some (.arr []) := by
  refine ⟨c3Struct_eval, ?_, by simp⟩
  simp [c3Struct, dfsSentinels, dfsSentinelsList, lookupField, isReadingListTitle]

/-- C3 (amended): when no `TypeError` is raised, `find_reading_list` performs
a depth-first search and returns the `Children` value of the first sentinel
folder in depth-first document order whose children value is truthy
(non-empty); sentinel folders with empty or missing children are skipped —
unless the root itself is the sentinel, in which case its children value is
returned unconditionally. -/
theorem claim_C3_amended (j : JVal) (r : Option JVal) (h : find_reading_list j = .ok r) :
    (rootSentinel j = false → r = (dfsSentinels j).find? JVal.truthy) ∧
    (rootSentinel j = true → r = some ((j.get? "Children").getD (.arr []))) := by
  have hc := find_reading_list_ok j r h
  constructor
  · intro hr
    rw [hr] at hc
    simpa using hc
  · intro hr
    rw [hr] at hc
    simpa using hc

/-- Witness for C3's amended claim at the concrete structure `c3Struct`. -/
theorem claim_C3_witness :
    some (.arr [.str "x"]) = (dfsSentinels c3Struct).find? JVal.truthy :=
  (claim_C3_amended c3Struct (some (.arr [.str "x"])) c3Struct_eval).1
    (by simp [c3Struct, rootSentinel, lookupField, isReadingListTitle])

/-- A concrete scraper result, as the external library would provide for a
successfully fetched page. -/
def scraperOutW : ScraperOut :=
  ⟨.str "Pasta", .str "example.com", .num 20, .str "4 servings",
   .arr [.str "pasta", .str "salt"], .str "Cook.", .str "https://example.com/p.jpg",
   some (.str "A. Cook"), some (.str "Italian"), some (.str "Dinner")⟩

/-- C4 (counterexample): a successful record does carry an `error` key — with
value `None` — so the field is present, not absent, when
`scraped_successfully` is true. -/
theorem claim_C4_counterexample :
    (scrape_recipe "https://example.com/r" "T" (.ok scraperOutW)).get? "scraped_successfully" =
      some (.bool true) ∧
    (scrape_recipe "https://example.com/r" "T" (.ok scraperOutW)).get? "error" = some .null ∧
    (scrape_recipe "https://example.com/r" "T" (.ok scraperOutW)).get? "error" ≠ none := by
  refine ⟨?_, ?_, ?_⟩
  all_goals simp [scrape_recipe, JVal.get?, lookupField, scraperOutW]

/-- C4 (amended): every record carries an `error` key; its value is `None`
exactly when `scraped_successfully` is true, and the exception's textual
description (a string) exactly when `scraped_successfully` is false. -/
theorem claim_C4_amended (url bookmark_title : String) (fr : FetchResult) :
    ∃ e, (scrape_recipe url bookmark_title fr).get? "error" = some e ∧
      (e = .null ↔
        (scrape_recipe url bookmark_title fr).get? "scraped_successfully" = some (.bool true)) ∧
      ((∃ m, e = .str m) ↔
        (scrape_recipe url bookmark_title fr).get? "scraped_successfully" = some (.bool false)) := by
  cases fr with
  | ok s =>
    refine ⟨.null, ?_, ?_, ?_⟩
    all_goals simp [scrape_recipe, JVal.get?, lookupField]
  | exn msg =>
    refine ⟨.str msg, ?_, ?_, ?_⟩
    all_goals simp [scrape_recipe, JVal.get?, lookupField]

/-- C5 (counterexample): a plist structure that lacks the sentinel folder but
makes extraction raise an uncaught `TypeError`, because the search iterates a
non-iterable `Children` value (an integer). -/
theorem claim_C5_counterexample :
    dfsSentinels c5Struct = [] ∧
    extract_urls_from_safari_reading_list (.content c5Struct) = .error () := by
  constructor
  · simp [c5Struct, dfsSentinels, lookupField, isReadingListTitle]
  · simp [c5Struct, extract_urls_from_safari_reading_list, find_reading_list,
      lookupField, isReadingListTitle]

/-- C5 (amended): with the bookmarks file absent or unreadable, extraction
returns the empty sequence and never raises; for a parsed structure that
lacks the sentinel folder it returns the empty sequence unless the search
itself raises `TypeError` on a non-iterable `Children` value, in which case
that exception propagates uncaught. -/
theorem claim_C5_amended :
    extract_urls_from_safari_reading_list .absent = .ok [] ∧
    extract_urls_from_safari_reading_list .unreadable = .ok [] ∧
    ∀ plist, dfsSentinels plist = [] →
      extract_urls_from_safari_reading_list (.content plist) =
        Except.map (fun _ => []) (find_reading_list plist) :=
  ⟨rfl, rfl, extract_no_sentinel⟩

/-- Witness for C5's amended claim at the concrete structure `c5Struct`. -/
theorem claim_C5_witness :
    extract_urls_from_safari_reading_list (.content c5Struct) =
      Except.map (fun _ => []) (find_reading_list c5Struct) :=
  claim_C5_amended.2.2 c5Struct
    (by simp [c5Struct, dfsSentinels, lookupField, isReadingListTitle])

/-- C6: if the store file is absent, or the records filtered to truthy
`scraped_successfully` are empty, the generator exits without writing a site
file; and whenever a site file is written, the filtered record list was
nonempty (never a zero-recipe page). -/
theorem claim_C6_no_empty_site (now : String) :
    generate_site_main now .absent = .ok none ∧
    (∀ text rs, json_load text = some (.arr rs) → successFilter rs = .ok [] →
      generate_site_main now (.content text) = .ok none) ∧
    (∀ store html, generate_site_main now store = .ok (some html) →
      ∃ recipes, load_recipes store = .ok recipes ∧ recipes ≠ []) := by
  refine ⟨rfl, ?_, ?_⟩
  · intro text rs hjson hfilter
    simp [generate_site_main, load_recipes, hjson, hfilter]
  · intro store html h
    cases hl : load_recipes store with
    | error e => simp [generate_site_main, hl] at h
    | ok recipes =>
      refine ⟨recipes, rfl, ?_⟩
      intro hnil
      subst hnil
      simp [generate_site_main, hl] at h

/-- Witness for C6 at the absent store and at a store holding an empty
record array. -/
theorem claim_C6_witness :
    generate_site_main "2026-01-01T00:00:00" .absent = .ok none ∧
    generate_site_main "2026-01-01T00:00:00" (.content "[]") = .ok none :=
  ⟨(claim_C6_no_empty_site "2026-01-01T00:00:00").1,
   (claim_C6_no_empty_site "2026-01-01T00:00:00").2.1 "[]" [] rfl rfl⟩

theorem str_append_suffix_ne_empty (s t : String) (ht : t.data ≠ []) : s ++ t ≠ "" := by
  intro h
  have hd := congrArg String.data h
  rw [String.data_append] at hd
  simp at hd
  exact ht hd.2

/-- C9: when `image` is missing, both the card and the detail view use the
fixed placeholder image URLs; when `title` is missing, "Untitled Recipe" is
used in both views; and an author exactly equal to "Unknown" is treated as
absent and its info item is omitted from the detail view. -/
theorem claim_C9_render_fallbacks (recipe : JVal) (i : Nat) :
    (recipe.get? "image" = none →
      card_image_url recipe = .str placeholder400 ∧
      detail_image_url recipe = .str placeholder800 ∧
      strContains (generate_recipe_card_html recipe i) placeholder400 = true ∧
      (∀ html, generate_recipe_detail_html recipe i = .ok html →
        strContains html placeholder800 = true)) ∧
    (recipe.get? "title" = none →
      card_title recipe = .str "Untitled Recipe" ∧
      detail_title recipe = .str "Untitled Recipe") ∧
    (pyGet recipe "author" = .str "Unknown" → detail_author_item recipe = "") := by
  refine ⟨?_, ?_, ?_⟩
  · intro himg
    have hcu : card_image_url recipe = .str placeholder400 := by
      simp [card_image_url, pyOr, pyGet, himg, JVal.truthy]
    have hdu : detail_image_url recipe = .str placeholder800 := by
      simp [detail_image_url, pyOr, pyGet, himg, JVal.truthy]
    have hbase : strContains (pyStr (card_image_url recipe)) placeholder400 = true := by
      rw [hcu]
      simpa [pyStr] using strContains_self placeholder400
    have hbase8 : strContains (pyStr (detail_image_url recipe)) placeholder800 = true := by
      rw [hdu]
      simpa [pyStr] using strContains_self placeholder800
    refine ⟨hcu, hdu, ?_, ?_⟩
    · rw [generate_recipe_card_html]
      simp only [String.append_assoc]
      apply strContains_append_of_right
      apply strContains_append_of_right
      apply strContains_append_of_right
      rw [hcu]
      show strContains (placeholder400 ++ _) _ = true
      exact strContains_append_of_self_left _ _
    · intro html hh
      rw [generate_recipe_detail_html] at hh
      cases hih : ingredients_html recipe with
      | error e => rw [hih] at hh; exact Except.noConfusion hh
      | ok ih =>
        rw [hih] at hh
        cases hin : detail_instructions recipe with
        | error e => rw [hin] at hh; exact Except.noConfusion hh
        | ok instr =>
          rw [hin] at hh
          simp only [Except.ok.injEq] at hh
          subst hh
          simp only [String.append_assoc]
          apply strContains_append_of_right
          apply strContains_append_of_right
          apply strContains_append_of_right
          apply strContains_append_of_right
          apply strContains_append_of_right
          rw [hdu]
          show strContains (placeholder800 ++ _) _ = true
          exact strContains_append_of_self_left _ _
  · intro htitle
    constructor
    · simp [card_title, pyGetD, htitle]
    · simp [detail_title, pyGetD, htitle]
  · intro hauthor
    simp [detail_author_item, hauthor, pyEqStr]

/-- A record with `image` and `title` missing and author "Unknown". -/
def c9RecW : JVal := .obj [("author", .str "Unknown")]

/-- Witness for C9 at a concrete record with missing image and title and an
"Unknown" author. -/
theorem claim_C9_witness :
    card_image_url c9RecW = .str placeholder400 ∧
    detail_image_url c9RecW = .str placeholder800 ∧
    card_title c9RecW = .str "Untitled Recipe" ∧
    detail_author_item c9RecW = "" :=
  ⟨((claim_C9_render_fallbacks c9RecW 0).1 rfl).1,
   ((claim_C9_render_fallbacks c9RecW 0).1 rfl).2.1,
   ((claim_C9_render_fallbacks c9RecW 0).2.1 rfl).1,
   (claim_C9_render_fallbacks c9RecW 0).2.2 rfl⟩

/-- C10: for records whose `total_time` is absent or an integer, the card's
time badge and the detail view's Time info item are empty exactly when
`total_time` is zero or absent, and a time element appears if and only if
`total_time` is a nonzero value. -/
theorem claim_C10_time_badges (recipe : JVal)
    (hshape : recipe.get? "total_time" = none ∨
      ∃ n : Int, recipe.get? "total_time" = some (.num n)) :
    ((recipe.get? "total_time" = none ∨ recipe.get? "total_time" = some (.num 0)) →
      card_time_span recipe = "" ∧ detail_time_item recipe = "") ∧
    ((card_time_span recipe ≠ "" ∨ detail_time_item recipe ≠ "") ↔
      ∃ n : Int, n ≠ 0 ∧ recipe.get? "total_time" = some (.num n)) := by
  rcases hshape with hnone | ⟨n, hn⟩
  · have hcs : card_time_span recipe = "" := by
      simp [card_time_span, card_time_str, card_total_time, pyGetD, hnone, JVal.truthy]
    have hds : detail_time_item recipe = "" := by
      simp [detail_time_item, pyGet, hnone, JVal.truthy]
    refine ⟨fun _ => ⟨hcs, hds⟩, ?_⟩
    simp [hcs, hds, hnone]
  · by_cases hz : n = 0
    · subst hz
      have hcs : card_time_span recipe = "" := by
        simp [card_time_span, card_time_str, card_total_time, pyGetD, hn, JVal.truthy]
      have hds : detail_time_item recipe = "" := by
        simp [detail_time_item, pyGet, hn, JVal.truthy]
      refine ⟨fun _ => ⟨hcs, hds⟩, ?_⟩
      simp [hcs, hds, hn]
    · have hts : card_time_str recipe = pyStr (.num n) ++ " min" := by
        simp [card_time_str, card_total_time, pyGetD, hn, JVal.truthy, hz]
      have htne : card_time_str recipe ≠ "" := by
        rw [hts]
        exact str_append_suffix_ne_empty _ _ (by simp [String.data])
      have hcs : card_time_span recipe ≠ "" := by
        rw [card_time_span, if_pos htne]
        intro h
        have hd := congrArg String.data h
        simp [String.data_append] at hd
      have hds : detail_time_item recipe ≠ "" := by
        rw [detail_time_item, if_pos (by simp [pyGet, hn, JVal.truthy, hz])]
        intro h
        have hd := congrArg String.data h
        simp [String.data_append] at hd
      refine ⟨?_, ?_⟩
      · intro habs
        rcases habs with habs | habs
        · rw [habs] at hn; exact Option.noConfusion hn
        · rw [habs] at hn
          simp only [Option.some.injEq] at hn
          injection hn with hn2
          exact absurd hn2.symm hz
      · constructor
        · intro _
          exact ⟨n, hz, hn⟩
        · intro _
          exact Or.inl hcs

/-- A record with `total_time` equal to zero and one with a nonzero time. -/
def c10RecZero : JVal := .obj [("total_time", .num 0)]

/-- A record with a nonzero `total_time`. -/
def c10RecTwenty : JVal := .obj [("total_time", .num 20)]

/-- Witness for C10 at records with `total_time` 0 and 20. -/
theorem claim_C10_witness :
    (card_time_span c10RecZero = "" ∧ detail_time_item c10RecZero = "") ∧
    ((card_time_span c10RecTwenty ≠ "" ∨ detail_time_item c10RecTwenty ≠ "") ↔
      ∃ n : Int, n ≠ 0 ∧ c10RecTwenty.get? "total_time" = some (.num n)) :=
  ⟨(claim_C10_time_badges c10RecZero (Or.inr ⟨0, rfl⟩)).1 (Or.inr rfl),
   (claim_C10_time_badges c10RecTwenty (Or.inr ⟨20, rfl⟩)).2⟩

theorem jsJoinElem_str_map (l : List String) : l.map (jsJoinElem ∘ JVal.str) = l := by
  induction l with
  | nil => rfl
  | cons a as ih =>
    simp only [List.map_cons, ih, Function.comp]
    rw [jsJoinElem]

theorem count_true_map_filter (texts : List String) (p : String → Bool) :
    (texts.map p).count true = (texts.filter p).length := by
  induction texts with
  | nil => rfl
  | cons t ts ih =>
    by_cases hp : p t
    · simp [List.count_cons, hp, ih, List.filter_cons]
    · simp [List.count_cons, hp, ih, List.filter_cons]

/-- C8: the input handler shows a card exactly when the lowercase query is a
substring of the recipe's haystack; the haystack computed for a projected
entry is the space-joined concatenation of title, host, category, cuisine and
all ingredients, lowercased; the visible count equals the number of matching
cards; and the no-results placeholder is displayed if and only if no card
matches. -/
theorem claim_C8_search (recipesData : List JVal) (q : String) (st : SearchUIState)
    (h : searchHandler recipesData q = .ok st) :
    ∃ texts, recipesData.mapM searchableText = .ok texts ∧
      st.cardDisplay = texts.map (fun t => if strContains t (lowerStr q) then "block" else "none") ∧
      (∀ (i : Nat) (t : String), texts[i]? = some t →
        (st.cardDisplay[i]? = some "block" ↔ strContains t (lowerStr q) = true)) ∧
      st.visibleCount = (texts.filter (fun t => strContains t (lowerStr q))).length ∧
      (st.noResultsDisplay = "block" ↔ st.visibleCount = 0) ∧
      (st.gridDisplay = "none" ↔ st.visibleCount = 0) ∧
      ∀ title host category cuisine ingredients,
        searchableText (mkSearchEntry title host category cuisine ingredients) =
          .ok (specHaystack title host (category.getD "") (cuisine.getD "") ingredients) := by
  rw [searchHandler] at h
  cases hm : recipesData.mapM searchableText with
  | error e => rw [hm] at h; exact Except.noConfusion h
  | ok texts =>
    rw [hm] at h
    simp only [Except.ok.injEq] at h
    subst h
    refine ⟨texts, rfl, ?_, ?_, ?_, ?_, ?_, ?_⟩
    · simp [List.map_map]
    · intro i t ht
      simp only [List.map_map, List.getElem?_map, ht]
      cases hsc : strContains t (lowerStr q) with
      | true => simp [Function.comp, hsc]
      | false => simp [Function.comp, hsc]
    · simp only [List.map_map]
      have : (texts.map (strContains · (lowerStr q))).count true =
          (texts.filter (strContains · (lowerStr q))).length :=
        count_true_map_filter texts _
      simpa using this
    · constructor
      · intro hb
        by_contra hc
        simp only [if_neg hc] at hb
        exact absurd hb (by simp)
      · intro hb
        simp [if_pos hb]
    · constructor
      · intro hb
        by_contra hc
        simp only [if_neg hc] at hb
        exact absurd hb (by simp)
      · intro hb
        simp [if_pos hb]
    · intro title host category cuisine ingredients
      rw [searchableText]
      have hspread : jsSpread (jsProp (mkSearchEntry title host category cuisine ingredients)
          "ingredients") = .ok (ingredients.map JVal.str) := by
        simp [mkSearchEntry, jsProp, jsSpread, lookupField]
      rw [hspread]
      rw [specHaystack]
      have hcat : jsJoinElem (jsOr (jsProp (mkSearchEntry title host category cuisine
          ingredients) "category") (.str "")) = category.getD "" := by
        cases category with
        | none => simp [mkSearchEntry, jsProp, lookupField, jsOr, jsTruthy, jsJoinElem]
        | some c =>
          by_cases hc : c = ""
          · subst hc
            simp [mkSearchEntry, jsProp, lookupField, jsOr, jsTruthy, jsJoinElem]
          · simp [mkSearchEntry, jsProp, lookupField, jsOr, jsTruthy, hc, jsJoinElem]
      have hcui : jsJoinElem (jsOr (jsProp (mkSearchEntry title host category cuisine
          ingredients) "cuisine") (.str "")) = cuisine.getD "" := by
        cases cuisine with
        | none => simp [mkSearchEntry, jsProp, lookupField, jsOr, jsTruthy, jsJoinElem]
        | some c =>
          by_cases hc : c = ""
          · subst hc
            simp [mkSearchEntry, jsProp, lookupField, jsOr, jsTruthy, jsJoinElem]
          · simp [mkSearchEntry, jsProp, lookupField, jsOr, jsTruthy, hc, jsJoinElem]
      have htitle : jsJoinElem (jsProp (mkSearchEntry title host category cuisine
          ingredients) "title") = title := by
        simp [mkSearchEntry, jsProp, lookupField, jsJoinElem]
      have hhost : jsJoinElem (jsProp (mkSearchEntry title host category cuisine
          ingredients) "host") = host := by
        simp [mkSearchEntry, jsProp, lookupField, jsJoinElem]
      have hing : List.map (jsJoinElem ∘ JVal.str) ingredients = ingredients :=
        jsJoinElem_str_map ingredients
      simp only [List.map_append, List.map_cons, List.map_nil, List.map_map]
      rw [hcat, hcui, htitle, hhost, hing]

/-- The search-data entry for the spec's single-recipe scenario. -/
def c8EntryW : JVal := mkSearchEntry "Pasta" "example.com" none none ["pasta", "salt"]

/-- The UI state after the query "salt" on the single-recipe page. -/
def c8StW : SearchUIState :=
  { cardDisplay := ["block"], visibleCount := 1, countText := "1 recipe",
    noResultsDisplay := "none", gridDisplay := "grid" }

theorem c8Entry_text : searchableText c8EntryW = .ok "pasta example.com   pasta salt" := by
  rw [c8EntryW, searchableText]
  have hspread : jsSpread (jsProp (mkSearchEntry "Pasta" "example.com" none none
      ["pasta", "salt"]) "ingredients") = .ok [.str "pasta", .str "salt"] := by
    simp [mkSearchEntry, jsProp, jsSpread, lookupField]
  rw [hspread]
  simp only [mkSearchEntry, jsProp, lookupField]
  norm_num
  simp [jsOr, jsTruthy, jsJoinElem]
  rfl

theorem c8_handler_salt : searchHandler [c8EntryW] "salt" = .ok c8StW := by
  rw [searchHandler]
  have hmap : List.mapM searchableText [c8EntryW] = .ok ["pasta example.com   pasta salt"] := by
    rw [List.mapM]
    simp [List.mapM.loop, c8Entry_text]
  rw [hmap]
  simp only []
  have hsc : strContains "pasta example.com   pasta salt" (lowerStr "salt") = true := by decide
  simp [hsc, natRepr, natReprAux, digitChar, lowerStr]
  rfl

/-- Witness for C8: the handler applied to the single-recipe page and the
query "salt", extracting the haystack law at the scenario's record fields. -/
theorem claim_C8_witness :
    searchableText (mkSearchEntry "Pasta" "example.com" none none ["pasta", "salt"]) =
      .ok (specHaystack "Pasta" "example.com" "" "" ["pasta", "salt"]) := by
  obtain ⟨texts, hm, hdisp, hiff, hcount, hnores, hgrid, hhay⟩ :=
    claim_C8_search [c8EntryW] "salt" c8StW c8_handler_salt
  have := hhay "Pasta" "example.com" none none ["pasta", "salt"]
  simpa using this

theorem digitChar_toNat (d : Nat) (h : d < 10) : (digitChar d).toNat = 48 + d := by
  interval_cases d <;> decide

theorem digitChar_isDigit (d : Nat) (h : d < 10) : (digitChar d).isDigit = true := by
  interval_cases d <;> decide

theorem digitChar_ne_sub (d : Nat) (h : d < 10) :
    digitChar d ≠ '-' ∧ digitChar d ≠ '.' ∧ digitChar d ≠ 'e' ∧ digitChar d ≠ 'E' := by
  interval_cases d <;> exact ⟨by decide, by decide, by decide, by decide⟩

theorem natReprAux_eq (fuel : Nat) : ∀ (n : Nat) (acc : List Char),
    n < 10 ^ fuel → 0 < fuel →
    natReprAux fuel n acc =
      (if n = 0 then ['0'] else (Nat.digits 10 n).reverse.map digitChar) ++ acc := by
  induction fuel with
  | zero => intro n acc _ h0; omega
  | succ fuel ih =>
    intro n acc hn _
    rw [natReprAux]
    by_cases h10 : n < 10
    · rw [if_pos h10]
      by_cases h0 : n = 0
      · subst h0
        simp only [if_pos rfl]
        show digitChar 0 :: acc = ['0'] ++ acc
        rfl
      · rw [if_neg h0]
        rw [Nat.digits_def' (by norm_num : (1 : Nat) < 10) (Nat.pos_of_ne_zero h0)]
        rw [Nat.div_eq_of_lt h10]
        simp [Nat.mod_eq_of_lt h10]
    · rw [if_neg h10]
      have hfuel : 0 < fuel := by
        by_contra hf
        have : fuel = 0 := by omega
        subst this
        simp at hn
        omega
      have hdiv : n / 10 < 10 ^ fuel := by
        rw [pow_succ] at hn
        omega
      rw [ih (n / 10) (digitChar (n % 10) :: acc) hdiv hfuel]
      have hd0 : ¬ n / 10 = 0 := by omega
      rw [if_neg hd0]
      have h0 : ¬ n = 0 := by omega
      rw [if_neg (by omega : ¬ n = 0)]
      rw [Nat.digits_def' (by norm_num : (1 : Nat) < 10) (by omega : 0 < n)]
      simp

theorem natRepr_data (n : Nat) :
    (natRepr n).data = if n = 0 then ['0'] else (Nat.digits 10 n).reverse.map digitChar := by
  rw [natRepr]
  show natReprAux (n + 1) n [] = _
  rw [natReprAux_eq (n + 1) n [] (Nat.lt_trans (Nat.lt_pow_self (by norm_num) _)
    (Nat.pow_lt_pow_succ (by norm_num))) (by omega)]
  simp

theorem foldr_digits_ofDigits (l : List Nat) (hl : ∀ d ∈ l, d < 10) :
    l.foldr (fun x y => y * 10 + ((digitChar x).toNat - 48)) 0 = Nat.ofDigits 10 l := by
  induction l with
  | nil => simp [Nat.ofDigits_nil]
  | cons d ds ih =>
    rw [List.foldr_cons, ih (fun x hx => hl x (List.mem_cons_of_mem _ hx)), Nat.ofDigits_cons]
    rw [digitChar_toNat d (hl d (List.mem_cons_self _ _))]
    omega

theorem natRepr_foldl (n : Nat) :
    ((natRepr n).data).foldl (fun a c => a * 10 + (c.toNat - 48)) 0 = n := by
  rw [natRepr_data]
  by_cases h0 : n = 0
  · subst h0; decide
  · rw [if_neg h0]
    rw [List.foldl_map, List.foldl_reverse]
    rw [foldr_digits_ofDigits _ (fun d hd => Nat.digits_lt_base (by norm_num) hd)]
    exact Nat.ofDigits_digits 10 n

theorem digitChar_ne_zero_char (d : Nat) (hd : d < 10) (h0 : d ≠ 0) : digitChar d ≠ '0' := by
  interval_cases d <;> first | omega | decide

theorem natRepr_data_ne_nil (m : Nat) : (natRepr m).data ≠ [] := by
  rw [natRepr_data]
  by_cases h0 : m = 0
  · rw [if_pos h0]; simp
  · rw [if_neg h0]
    have hne : Nat.digits 10 m ≠ [] := Nat.digits_ne_nil_iff_ne_zero.mpr h0
    simpa using hne

theorem parseIntCore_natRepr (neg : Bool) (m : Nat) (rest : List Char)
    (hrest : ∀ c, rest.head? = some c → c.isDigit = false ∧ c ≠ '.' ∧ c ≠ 'e' ∧ c ≠ 'E') :
    parseIntCore neg ((natRepr m).data ++ rest) =
      some ((if neg then -(m : Int) else (m : Int)), rest) := by
  by_cases h0 : m = 0
  · subst h0
    have hdata : (natRepr 0).data = ['0'] := by decide
    rw [hdata]
    show parseIntCore neg ('0' :: rest) = _
    simp only [parseIntCore]
    cases rest with
    | nil => cases neg <;> simp
    | cons d t =>
      have hd := hrest d rfl
      cases neg <;> simp [hd.1, hd.2.1, hd.2.2.1, hd.2.2.2]
  · have hne : Nat.digits 10 m ≠ [] := Nat.digits_ne_nil_iff_ne_zero.mpr h0
    cases hrev : (Nat.digits 10 m).reverse with
    | nil => exact absurd (by simpa using congrArg List.reverse hrev) hne
    | cons d0 ds =>
      have hmem0 : d0 ∈ Nat.digits 10 m := by
        have : d0 ∈ (Nat.digits 10 m).reverse := by rw [hrev]; exact List.mem_cons_self _ _
        exact List.mem_reverse.1 this
      have hd0lt : d0 < 10 := Nat.digits_lt_base (by norm_num) hmem0
      have hd0ne : d0 ≠ 0 := by
        have hlast := Nat.getLast_digit_ne_zero 10 h0
        have hsome : (Nat.digits 10 m).getLast? = some d0 := by
          rw [List.getLast?_eq_head?_reverse, hrev]
          rfl
        rw [List.getLast?_eq_getLast _ hne, Option.some.injEq] at hsome
        rw [← hsome]
        exact hlast
      have hdslt : ∀ x ∈ ds, x < 10 := by
        intro x hx
        have : x ∈ (Nat.digits 10 m).reverse := by rw [hrev]; exact List.mem_cons_of_mem _ hx
        exact Nat.digits_lt_base (by norm_num) (List.mem_reverse.1 this)
      have hdata : (natRepr m).data = digitChar d0 :: ds.map digitChar := by
        rw [natRepr_data, if_neg h0, hrev]
        rfl
      rw [hdata]
      show parseIntCore neg (digitChar d0 :: (ds.map digitChar ++ rest)) = _
      simp only [parseIntCore]
      rw [if_neg (digitChar_ne_zero_char d0 hd0lt hd0ne)]
      rw [if_pos (digitChar_isDigit d0 hd0lt)]
      have hall : ∀ c ∈ ds.map digitChar, c.isDigit = true := by
        intro c hc
        obtain ⟨x, hx, hcx⟩ := List.mem_map.1 hc
        rw [← hcx]
        exact digitChar_isDigit x (hdslt x hx)
      have htake2 : rest.takeWhile Char.isDigit = [] := by
        cases rest with
        | nil => rfl
        | cons c t =>
          rw [List.takeWhile_cons]
          rw [(hrest c rfl).1]
          rfl
      have hdrop2 : rest.dropWhile Char.isDigit = rest := by
        cases rest with
        | nil => rfl
        | cons c t =>
          rw [List.dropWhile_cons]
          rw [(hrest c rfl).1]
          rfl
      simp only [List.takeWhile_append_of_pos hall, List.dropWhile_append_of_pos hall,
        htake2, hdrop2, List.append_nil]
      have hfold : (digitChar d0 :: ds.map digitChar).foldl
          (fun a d => a * 10 + (d.toNat - 48)) 0 = m := by
        rw [← hdata]
        exact natRepr_foldl m
      rw [hfold]
      cases rest with
      | nil => rfl
      | cons c t =>
        have hc := hrest c rfl
        show (if c = '.' ∨ c = 'e' ∨ c = 'E' then none
              else some ((if neg then -(m : Int) else (m : Int)), c :: t)) =
          some ((if neg then -(m : Int) else (m : Int)), c :: t)
        rw [if_neg (by simp [hc.2.1, hc.2.2.1, hc.2.2.2])]

theorem natRepr_head_not_dash (m : Nat) :
    ∀ c, ((natRepr m).data).head? = some c → c ≠ '-' := by
  intro c hc
  rw [natRepr_data] at hc
  by_cases h0 : m = 0
  · rw [if_pos h0] at hc
    simp at hc
    subst hc
    decide
  · rw [if_neg h0] at hc
    cases hrev : (Nat.digits 10 m).reverse with
    | nil => rw [hrev] at hc; simp at hc
    | cons d0 ds =>
      rw [hrev] at hc
      simp at hc
      subst hc
      have hd0lt : d0 < 10 := by
        have : d0 ∈ (Nat.digits 10 m).reverse := by rw [hrev]; exact List.mem_cons_self _ _
        exact Nat.digits_lt_base (by norm_num) (List.mem_reverse.1 this)
      exact (digitChar_ne_sub d0 hd0lt).1

theorem parseIntLex_intRepr (n : Int) (rest : List Char)
    (hrest : ∀ c, rest.head? = some c → c.isDigit = false ∧ c ≠ '.' ∧ c ≠ 'e' ∧ c ≠ 'E') :
    parseIntLex ((intRepr n).data ++ rest) = some (n, rest) := by
  rw [intRepr]
  by_cases hneg : n < 0
  · rw [if_pos hneg]
    have hdata : ("-" ++ natRepr (-n).toNat).data ++ rest
        = '-' :: ((natRepr (-n).toNat).data ++ rest) := by
      rw [String.data_append]
      rfl
    rw [hdata]
    rw [parseIntLex]
    rw [parseIntCore_natRepr true (-n).toNat rest hrest]
    have hval : -(((-n).toNat : Nat) : Int) = n := by omega
    rw [if_pos rfl, hval]
  · rw [if_neg hneg]
    have hcore := parseIntCore_natRepr false n.toNat rest hrest
    have hval : ((n.toNat : Nat) : Int) = n := by omega
    rw [parseIntLex.eq_def]
    split
    · next t heq =>
      exfalso
      cases hd : (natRepr n.toNat).data with
      | nil => exact natRepr_data_ne_nil n.toNat hd
      | cons c cs =>
        rw [hd] at heq
        have hcne : c ≠ '-' := natRepr_head_not_dash n.toNat c (by rw [hd]; rfl)
        simp only [List.cons_append] at heq
        injection heq with h1 h2
        exact hcne h1
    · rw [hcore]
      simp [hval]

/-! ### String escaping: correctness of `jsonQuote` under the string parser -/

/-- The escaped character data of a string body, character by character. -/
def escData : List Char → List Char
  | [] => []
  | c :: cs => (jsonEscapeChar c).data ++ escData cs

theorem foldl_append_data (L : List String) : ∀ (a : String),
    (L.foldl (· ++ ·) a).data = a.data ++ (L.map String.data).flatten := by
  induction L with
  | nil => intro a; simp
  | cons s ss ih =>
    intro a
    simp only [List.foldl_cons, ih, List.map_cons, List.flatten_cons, String.data_append]
    simp [List.append_assoc]

theorem escData_eq_join (l : List Char) :
    (String.join (l.map jsonEscapeChar)).data = escData l := by
  rw [String.join, foldl_append_data]
  show ((l.map jsonEscapeChar).map String.data).flatten = escData l
  induction l with
  | nil => rfl
  | cons c cs ih => simp only [List.map_cons, List.flatten_cons, ih, escData]

theorem jsonQuote_data (s : String) :
    (jsonQuote s).data = '"' :: (escData s.data ++ ['"']) := by
  rw [jsonQuote]
  simp only [String.data_append, escData_eq_join]
  rfl

theorem hexVal_hexDigit (d : Nat) (h : d < 16) : hexVal (hexDigit d) = some d := by
  interval_cases d <;> decide

theorem parseStrChars_raw (fuel : Nat) (c : Char) (l : List Char)
    (h1 : c ≠ '"') (h2 : c ≠ '\\') (h3 : ¬ c.toNat < 0x20) :
    parseStrChars (fuel + 1) (c :: l) =
      (match parseStrChars fuel l with
      | some (cs, r3) => some (c :: cs, r3)
      | none => none) := by
  rw [parseStrChars.eq_def]
  split
  · next heq => exact absurd heq (by omega)
  · next a b fuel2 heq =>
    have hf : fuel2 = fuel := by omega
    subst hf
    split
    · next heq => exact List.noConfusion heq
    · next rest heq =>
      injection heq with hh htl
      exact absurd hh h1
    · next e rest heq =>
      injection heq with hh htl
      exact absurd hh h2
    · next c2 rest heq =>
      injection heq with hh htl
      subst hh
      subst htl
      rw [if_neg h3]

theorem parseU_ctrl (t : Nat) (l : List Char) (ht : t < 0x20) :
    parseUChar ('0' :: '0' :: hexDigit (t / 16) :: hexDigit (t % 16) :: l) =
      some (Char.ofNat t, l) := by
  rw [parseUChar]
  have h4 : parseHex4 ('0' :: '0' :: hexDigit (t / 16) :: hexDigit (t % 16) :: l) =
      some (t, l) := by
    rw [parseHex4]
    rw [hexVal_hexDigit (t / 16) (by omega), hexVal_hexDigit (t % 16) (by omega)]
    show some (((0 * 16 + 0) * 16 + t / 16) * 16 + t % 16, l) = some (t, l)
    congr 2
    omega
  simp only [h4]
  rw [if_neg (by omega)]
  rw [if_neg (by omega)]

theorem parseStr_round : ∀ (s rest : List Char) (fuel : Nat),
    s.length + 1 ≤ fuel →
    parseStrChars fuel (escData s ++ '"' :: rest) = some (s, rest) := by
  intro s
  induction s with
  | nil =>
    intro rest fuel hf
    match fuel, hf with
    | fuel + 1, _ => rfl
  | cons c cs ih =>
    intro rest fuel hf
    match fuel, hf with
    | fuel + 1, hf =>
      have hIH := ih rest fuel (by simp at hf; omega)
      rw [escData, List.append_assoc, jsonEscapeChar]
      by_cases hbs : c = '\\'
      · rw [if_pos hbs]
        subst hbs
        have hstep : parseStrChars (fuel + 1)
            (['\\', '\\'] ++ (escData cs ++ '"' :: rest)) =
            (match parseStrChars fuel (escData cs ++ '"' :: rest) with
            | some (cs2, r3) => some ('\\' :: cs2, r3)
            | none => none) := rfl
        rw [hstep, hIH]
      rw [if_neg hbs]
      by_cases hq : c = '"'
      · rw [if_pos hq]
        subst hq
        have hstep : parseStrChars (fuel + 1)
            (['\\', '"'] ++ (escData cs ++ '"' :: rest)) =
            (match parseStrChars fuel (escData cs ++ '"' :: rest) with
            | some (cs2, r3) => some ('"' :: cs2, r3)
            | none => none) := rfl
        rw [hstep, hIH]
      rw [if_neg hq]
      by_cases h8 : c = '\x08'
      · rw [if_pos h8]
        subst h8
        have hstep : parseStrChars (fuel + 1)
            (['\\', 'b'] ++ (escData cs ++ '"' :: rest)) =
            (match parseStrChars fuel (escData cs ++ '"' :: rest) with
            | some (cs2, r3) => some ('\x08' :: cs2, r3)
            | none => none) := rfl
        rw [hstep, hIH]
      rw [if_neg h8]
      by_cases hc12 : c = '\x0c'
      · rw [if_pos hc12]
        subst hc12
        have hstep : parseStrChars (fuel + 1)
            (['\\', 'f'] ++ (escData cs ++ '"' :: rest)) =
            (match parseStrChars fuel (escData cs ++ '"' :: rest) with
            | some (cs2, r3) => some ('\x0c' :: cs2, r3)
            | none => none) := rfl
        rw [hstep, hIH]
      rw [if_neg hc12]
      by_cases hn : c = '\n'
      · rw [if_pos hn]
        subst hn
        have hstep : parseStrChars (fuel + 1)
            (['\\', 'n'] ++ (escData cs ++ '"' :: rest)) =
            (match parseStrChars fuel (escData cs ++ '"' :: rest) with
            | some (cs2, r3) => some ('\n' :: cs2, r3)
            | none => none) := rfl
        rw [hstep, hIH]
      rw [if_neg hn]
      by_cases hr : c = '\r'
      · rw [if_pos hr]
        subst hr
        have hstep : parseStrChars (fuel + 1)
            (['\\', 'r'] ++ (escData cs ++ '"' :: rest)) =
            (match parseStrChars fuel (escData cs ++ '"' :: rest) with
            | some (cs2, r3) => some ('\r' :: cs2, r3)
            | none => none) := rfl
        rw [hstep, hIH]
      rw [if_neg hr]
      by_cases htab : c = '\t'
      · rw [if_pos htab]
        subst htab
        have hstep : parseStrChars (fuel + 1)
            (['\\', 't'] ++ (escData cs ++ '"' :: rest)) =
            (match parseStrChars fuel (escData cs ++ '"' :: rest) with
            | some (cs2, r3) => some ('\t' :: cs2, r3)
            | none => none) := rfl
        rw [hstep, hIH]
      rw [if_neg htab]
      by_cases hctrl : c.toNat < 0x20
      · rw [if_pos hctrl]
        have hstep : parseStrChars (fuel + 1)
            (("\\u00" ++ String.singleton (hexDigit (c.toNat / 16)) ++
              String.singleton (hexDigit (c.toNat % 16))).data ++ (escData cs ++ '"' :: rest)) =
            (match parseUChar ('0' :: '0' :: hexDigit (c.toNat / 16) :: hexDigit (c.toNat % 16) ::
                (escData cs ++ '"' :: rest)) with
            | some (ch, r2) =>
              (match parseStrChars fuel r2 with
              | some (cs2, r3) => some (ch :: cs2, r3)
              | none => none)
            | none => none) := rfl
        rw [hstep]
        rw [parseU_ctrl c.toNat _ hctrl]
        show (match parseStrChars fuel (escData cs ++ '"' :: rest) with
          | some (cs2, r3) => some (Char.ofNat c.toNat :: cs2, r3)
          | none => none) = some (c :: cs, rest)
        rw [hIH, Char.ofNat_toNat]
      · rw [if_neg hctrl]
        have hstep : (String.singleton c).data ++ (escData cs ++ '"' :: rest) =
            c :: (escData cs ++ '"' :: rest) := rfl
        rw [hstep]
        rw [parseStrChars_raw fuel c _ hq hbs hctrl]
        rw [hIH]

/-! ### Round-trip of the indent-2 encoder through the decoder -/

mutual
/-- Fuel the recursive-descent parser needs to consume the encoding of a
value: one step per `parseVal` call, one per loop iteration, and one per
string character plus closing quote. -/
def needV : JVal → Nat
  | .null => 1
  | .bool _ => 1
  | .num _ => 1
  | .str s => s.data.length + 2
  | .arr [] => 1
  | .arr (x :: xs) => 1 + (1 + needV x + needL xs)
  | .obj [] => 1
  | .obj ((k, v) :: fs) => 1 + (1 + (k.data.length + 1) + needV v + needF fs)
termination_by v => sizeOf v
decreasing_by
  all_goals (simp; try omega)

/-- Fuel needed by `parseArrLoop` for the remaining items. -/
def needL : List JVal → Nat
  | [] => 0
  | x :: xs => 1 + needV x + needL xs
termination_by xs => sizeOf xs
decreasing_by
  all_goals (simp; try omega)

/-- Fuel needed by `parseObjLoop` for the remaining fields. -/
def needF : List (String × JVal) → Nat
  | [] => 0
  | (k, v) :: fs => 1 + (k.data.length + 1) + needV v + needF fs
termination_by fs => sizeOf fs
decreasing_by
  all_goals (simp; try omega)
end

theorem needV_pos (v : JVal) : 1 ≤ needV v := by
  cases v with
  | null => simp [needV]
  | bool b => simp [needV]
  | num n => simp [needV]
  | str s => simp [needV]
  | arr l => cases l <;> simp [needV]
  | obj l =>
    cases l with
    | nil => simp [needV]
    | cons f fs => obtain ⟨k, v⟩ := f; simp [needV]

theorem skipWs_cons_neg (c : Char) (t : List Char) (h : isJsonWs c = false) :
    skipWs (c :: t) = c :: t := by
  rw [skipWs, List.dropWhile_cons, h]
  simp

theorem skipWs_append_ws (w : List Char) (s : List Char)
    (hw : ∀ c ∈ w, isJsonWs c = true) : skipWs (w ++ s) = skipWs s := by
  induction w with
  | nil => rfl
  | cons c t ih =>
    rw [List.cons_append, skipWs, List.dropWhile_cons, hw c (List.mem_cons_self c t)]
    exact ih (fun c hc => hw c (List.mem_cons_of_mem _ hc))

theorem spaces_ws (n : Nat) : ∀ c ∈ (spaces n).data, isJsonWs c = true := by
  intro c hc
  rw [spaces] at hc
  have : c = ' ' := List.eq_of_mem_replicate hc
  subst this
  rfl

theorem parseVal_ws (fuel : Nat) (w s : List Char) (hw : ∀ c ∈ w, isJsonWs c = true) :
    parseVal fuel (w ++ s) = parseVal fuel s := by
  cases fuel with
  | zero => rfl
  | succ f => simp only [parseVal, skipWs_append_ws w s hw]

theorem parseObjLoop_ws (fuel : Nat) (w s : List Char) (hw : ∀ c ∈ w, isJsonWs c = true) :
    parseObjLoop fuel (w ++ s) = parseObjLoop fuel s := by
  cases fuel with
  | zero => rfl
  | succ f => simp only [parseObjLoop, skipWs_append_ws w s hw]

theorem parseArrLoop_ws (fuel : Nat) (w s : List Char) (hw : ∀ c ∈ w, isJsonWs c = true) :
    parseArrLoop fuel (w ++ s) = parseArrLoop fuel s := by
  cases fuel with
  | zero => rfl
  | succ f => simp only [parseArrLoop, parseVal_ws f w s hw]

theorem digit_not_special (c : Char) (h : c.isDigit = true) :
    isJsonWs c = false ∧ c ≠ ']' ∧ c ≠ '\x7d' := by
  have h1 : c ≠ ' ' := fun he => by subst he; exact absurd h (by decide)
  have h2 : c ≠ '\t' := fun he => by subst he; exact absurd h (by decide)
  have h3 : c ≠ '\n' := fun he => by subst he; exact absurd h (by decide)
  have h4 : c ≠ '\r' := fun he => by subst he; exact absurd h (by decide)
  have h5 : c ≠ ']' := fun he => by subst he; exact absurd h (by decide)
  have h6 : c ≠ '\x7d' := fun he => by subst he; exact absurd h (by decide)
  exact ⟨by simp [isJsonWs, h1, h2, h3, h4], h5, h6⟩

theorem natRepr_head_digit (m : Nat) :
    ∀ c, ((natRepr m).data).head? = some c → c.isDigit = true := by
  intro c hc
  rw [natRepr_data] at hc
  by_cases h0 : m = 0
  · rw [if_pos h0] at hc
    simp at hc
    subst hc
    decide
  · rw [if_neg h0] at hc
    cases hrev : (Nat.digits 10 m).reverse with
    | nil => rw [hrev] at hc; simp at hc
    | cons d0 ds =>
      rw [hrev] at hc
      simp at hc
      subst hc
      have hd0lt : d0 < 10 := by
        have : d0 ∈ (Nat.digits 10 m).reverse := by rw [hrev]; exact List.mem_cons_self _ _
        exact Nat.digits_lt_base (by norm_num) (List.mem_reverse.1 this)
      exact digitChar_isDigit d0 hd0lt

theorem intRepr_head (n : Int) :
    ∃ c, ((intRepr n).data).head? = some c ∧ (c = '-' ∨ c.isDigit = true) := by
  rw [intRepr]
  by_cases hneg : n < 0
  · rw [if_pos hneg]
    exact ⟨'-', by rw [String.data_append]; rfl, Or.inl rfl⟩
  · rw [if_neg hneg]
    cases hd : (natRepr n.toNat).data with
    | nil => exact absurd hd (natRepr_data_ne_nil n.toNat)
    | cons c cs =>
      have hh : ((natRepr n.toNat).data).head? = some c := by rw [hd]; rfl
      exact ⟨c, rfl, Or.inr (natRepr_head_digit n.toNat c hh)⟩

/-- The first character of any indent-mode encoding: never whitespace, never
a closing bracket or brace. -/
theorem dump_head (lvl : Nat) (v : JVal) :
    ∃ c, ((dumpVal lvl v).data).head? = some c ∧
      isJsonWs c = false ∧ c ≠ ']' ∧ c ≠ '\x7d' := by
  cases v with
  | null => exact ⟨'n', by simp [dumpVal], by decide, by decide, by decide⟩
  | bool b =>
    cases b with
    | false => exact ⟨'f', by simp [dumpVal], by decide, by decide, by decide⟩
    | true => exact ⟨'t', by simp [dumpVal], by decide, by decide, by decide⟩
  | num n =>
    obtain ⟨c, hc, hcase⟩ := intRepr_head n
    refine ⟨c, by simp only [dumpVal]; exact hc, ?_⟩
    cases hcase with
    | inl h => subst h; exact ⟨by decide, by decide, by decide⟩
    | inr h => exact digit_not_special c h
  | str s =>
    refine ⟨'"', ?_, by decide, by decide, by decide⟩
    simp only [dumpVal, jsonQuote_data]
    rfl
  | arr l =>
    cases l with
    | nil => exact ⟨'[', by simp [dumpVal], by decide, by decide, by decide⟩
    | cons x xs =>
      refine ⟨'[', ?_, by decide, by decide, by decide⟩
      simp only [dumpVal, String.data_append]
      rfl
  | obj l =>
    cases l with
    | nil => exact ⟨'\x7b', by simp [dumpVal], by decide, by decide, by decide⟩
    | cons f fs =>
      obtain ⟨k, v⟩ := f
      refine ⟨'\x7b', ?_, by decide, by decide, by decide⟩
      simp only [dumpVal, String.data_append]
      rfl

theorem skipWs_head_neg (l : List Char) (s : List Char) (c : Char)
    (hc : l.head? = some c) (hws : isJsonWs c = false) : skipWs (l ++ s) = l ++ s := by
  cases l with
  | nil => exact absurd hc (by simp)
  | cons a t =>
    injection hc with ha
    subst ha
    rw [List.cons_append]
    exact skipWs_cons_neg _ _ hws

/-- Round-trip property of one value: its indent-mode encoding, followed by
any continuation that cannot extend a number literal, parses back to exactly
the value with the continuation untouched, for every sufficient fuel. -/
def RoundV (v : JVal) : Prop :=
  ∀ (lvl : Nat) (rest : List Char) (fuel : Nat), needV v ≤ fuel →
    (∀ c, rest.head? = some c → c.isDigit = false ∧ c ≠ '.' ∧ c ≠ 'e' ∧ c ≠ 'E') →
    parseVal fuel ((dumpVal lvl v).data ++ rest) = some (v, rest)

theorem roundV_null : RoundV .null := by
  intro lvl rest fuel hfuel hrest
  have hpos : 1 ≤ fuel := le_trans (needV_pos _) hfuel
  obtain ⟨f, rfl⟩ : ∃ f, fuel = f + 1 := ⟨fuel - 1, by omega⟩
  simp only [dumpVal]
  show parseVal (f + 1) ('n' :: 'u' :: 'l' :: 'l' :: rest) = some (.null, rest)
  rfl

theorem roundV_bool (b : Bool) : RoundV (.bool b) := by
  intro lvl rest fuel hfuel hrest
  have hpos : 1 ≤ fuel := le_trans (needV_pos _) hfuel
  obtain ⟨f, rfl⟩ : ∃ f, fuel = f + 1 := ⟨fuel - 1, by omega⟩
  cases b with
  | true =>
    simp only [dumpVal]
    show parseVal (f + 1) ('t' :: 'r' :: 'u' :: 'e' :: rest) = some (.bool true, rest)
    rfl
  | false =>
    simp only [dumpVal]
    show parseVal (f + 1) ('f' :: 'a' :: 'l' :: 's' :: 'e' :: rest) = some (.bool false, rest)
    rfl

theorem roundV_str (s : String) : RoundV (.str s) := by
  intro lvl rest fuel hfuel hrest
  have hpos : 1 ≤ fuel := le_trans (needV_pos _) hfuel
  obtain ⟨f, rfl⟩ : ∃ f, fuel = f + 1 := ⟨fuel - 1, by omega⟩
  simp only [dumpVal, jsonQuote_data]
  have hform : ('"' :: (escData s.data ++ ['"'])) ++ rest =
      '"' :: (escData s.data ++ '"' :: rest) := by
    simp [List.append_assoc]
  rw [hform]
  show (match parseStrChars f (escData s.data ++ '"' :: rest) with
    | some (cs, r) => some (JVal.str ⟨cs⟩, r)
    | none => none) = some (JVal.str s, rest)
  rw [parseStr_round s.data rest f (by simp only [needV] at hfuel; omega)]

theorem roundV_num (n : Int) : RoundV (.num n) := by
  intro lvl rest fuel hfuel hrest
  have hpos : 1 ≤ fuel := le_trans (needV_pos _) hfuel
  obtain ⟨f, rfl⟩ : ∃ f, fuel = f + 1 := ⟨fuel - 1, by omega⟩
  simp only [dumpVal]
  obtain ⟨c, hc, hcase⟩ := intRepr_head n
  cases hd : (intRepr n).data with
  | nil => rw [hd] at hc; exact absurd hc (by simp)
  | cons a t =>
    rw [hd] at hc
    injection hc with ha
    subst ha
    simp only [parseVal, List.cons_append]
    rw [skipWs_cons_neg _ _ (by
      rcases hcase with h | h
      · subst h; decide
      · exact (digit_not_special a h).1)]
    split
    all_goals try (rename_i r heq; exfalso; injection heq with h1 h2; subst h1; rcases hcase with h | h <;> exact absurd h (by decide))
    rw [show a :: (t ++ rest) = (intRepr n).data ++ rest from by rw [hd]; rfl]
    rw [parseIntLex_intRepr n rest hrest]

theorem roundV_arr_nil : RoundV (.arr []) := by
  intro lvl rest fuel hfuel hrest
  have hpos : 1 ≤ fuel := le_trans (needV_pos _) hfuel
  obtain ⟨f, rfl⟩ : ∃ f, fuel = f + 1 := ⟨fuel - 1, by omega⟩
  simp only [dumpVal]
  show parseVal (f + 1) ('[' :: ']' :: rest) = some (.arr [], rest)
  rfl

theorem roundV_obj_nil : RoundV (.obj []) := by
  intro lvl rest fuel hfuel hrest
  have hpos : 1 ≤ fuel := le_trans (needV_pos _) hfuel
  obtain ⟨f, rfl⟩ : ∃ f, fuel = f + 1 := ⟨fuel - 1, by omega⟩
  simp only [dumpVal]
  show parseVal (f + 1) ('\x7b' :: '\x7d' :: rest) = some (.obj [], rest)
  rfl

theorem newline_spaces_ws (m : Nat) : ∀ c ∈ '\n' :: (spaces m).data, isJsonWs c = true := by
  intro c hc
  rcases List.mem_cons.1 hc with h | h
  · subst h; decide
  · exact spaces_ws m c h

/-- The array-item loop consumes the indent-mode items list up to the closing
bracket, provided each element round-trips. -/
theorem arrLoop_round (lvl : Nat) : ∀ (xs : List JVal) (x : JVal),
    (∀ y ∈ x :: xs, RoundV y) →
    ∀ (rest : List Char) (fuel : Nat), 1 + needV x + needL xs ≤ fuel →
    parseArrLoop fuel ((dumpVal (lvl + 2) x).data ++ ((dumpItems (lvl + 2) xs).data ++
      ('\n' :: ((spaces lvl).data ++ ']' :: rest)))) = some (x :: xs, rest) := by
  intro xs
  induction xs with
  | nil =>
    intro x hmem rest fuel hfuel
    obtain ⟨f, rfl⟩ : ∃ f, fuel = f + 1 := ⟨fuel - 1, by omega⟩
    simp only [needL] at hfuel
    simp only [dumpItems]
    rw [show (("" : String).data ++ ('\n' :: ((spaces lvl).data ++ ']' :: rest))) =
      '\n' :: ((spaces lvl).data ++ ']' :: rest) from rfl]
    simp only [parseArrLoop]
    have hrest1 : ∀ c, ('\n' :: ((spaces lvl).data ++ ']' :: rest)).head? = some c →
        c.isDigit = false ∧ c ≠ '.' ∧ c ≠ 'e' ∧ c ≠ 'E' := by
      intro c hc
      injection hc with h1
      subst h1
      exact ⟨by decide, by decide, by decide, by decide⟩
    have hval := hmem x (List.mem_cons_self x []) (lvl + 2)
      ('\n' :: ((spaces lvl).data ++ ']' :: rest)) f (by omega) hrest1
    rw [hval]
    show (match skipWs ('\n' :: ((spaces lvl).data ++ ']' :: rest)) with
      | ',' :: r2 =>
        (match parseArrLoop f r2 with
        | some (vs, r3) => some (x :: vs, r3)
        | none => none)
      | ']' :: r2 => some ([x], r2)
      | _ => none) = some ([x], rest)
    have hskip : skipWs ('\n' :: ((spaces lvl).data ++ ']' :: rest)) = ']' :: rest := by
      rw [show ('\n' :: ((spaces lvl).data ++ ']' :: rest)) =
        ('\n' :: (spaces lvl).data) ++ (']' :: rest) from by simp]
      rw [skipWs_append_ws _ _ (newline_spaces_ws lvl)]
      exact skipWs_cons_neg _ _ (by decide)
    rw [hskip]
    rfl
  | cons y ys ih =>
    intro x hmem rest fuel hfuel
    obtain ⟨f, rfl⟩ : ∃ f, fuel = f + 1 := ⟨fuel - 1, by omega⟩
    simp only [needL] at hfuel
    have hx1 : 1 ≤ needV x := needV_pos x
    simp only [dumpItems, String.data_append]
    simp only [show ((",\n" : String).data) = [',', '\n'] from rfl, List.cons_append,
      List.append_assoc, List.nil_append]
    simp only [parseArrLoop]
    have hrest1 : ∀ c, (',' :: '\n' :: ((spaces (lvl + 2)).data ++ ((dumpVal (lvl + 2) y).data ++
        ((dumpItems (lvl + 2) ys).data ++ ('\n' :: ((spaces lvl).data ++ ']' :: rest)))))).head? =
        some c → c.isDigit = false ∧ c ≠ '.' ∧ c ≠ 'e' ∧ c ≠ 'E' := by
      intro c hc
      injection hc with h1
      subst h1
      exact ⟨by decide, by decide, by decide, by decide⟩
    have hval := hmem x (List.mem_cons_self x (y :: ys)) (lvl + 2)
      (',' :: '\n' :: ((spaces (lvl + 2)).data ++ ((dumpVal (lvl + 2) y).data ++
        ((dumpItems (lvl + 2) ys).data ++ ('\n' :: ((spaces lvl).data ++ ']' :: rest))))))
      f (by omega) hrest1
    rw [hval]
    show (match skipWs (',' :: '\n' :: ((spaces (lvl + 2)).data ++ ((dumpVal (lvl + 2) y).data ++
        ((dumpItems (lvl + 2) ys).data ++ ('\n' :: ((spaces lvl).data ++ ']' :: rest)))))) with
      | ',' :: r2 =>
        (match parseArrLoop f r2 with
        | some (vs, r3) => some (x :: vs, r3)
        | none => none)
      | ']' :: r2 => some ([x], r2)
      | _ => none) = some (x :: y :: ys, rest)
    rw [skipWs_cons_neg _ _ (by decide)]
    show (match parseArrLoop f ('\n' :: ((spaces (lvl + 2)).data ++ ((dumpVal (lvl + 2) y).data ++
        ((dumpItems (lvl + 2) ys).data ++ ('\n' :: ((spaces lvl).data ++ ']' :: rest)))))) with
      | some (vs, r3) => some (x :: vs, r3)
      | none => none) = some (x :: y :: ys, rest)
    rw [show ('\n' :: ((spaces (lvl + 2)).data ++ ((dumpVal (lvl + 2) y).data ++
        ((dumpItems (lvl + 2) ys).data ++ ('\n' :: ((spaces lvl).data ++ ']' :: rest)))))) =
      ('\n' :: (spaces (lvl + 2)).data) ++ ((dumpVal (lvl + 2) y).data ++
        ((dumpItems (lvl + 2) ys).data ++ ('\n' :: ((spaces lvl).data ++ ']' :: rest)))) from by simp]
    rw [parseArrLoop_ws f _ _ (newline_spaces_ws (lvl + 2))]
    rw [ih y (fun z hz => hmem z (List.mem_cons_of_mem x hz)) rest f (by omega)]

/-- The object-field loop consumes the indent-mode fields list up to the
closing brace, provided each field value round-trips. -/
theorem objLoop_round (lvl : Nat) : ∀ (fs : List (String × JVal)) (k : String) (v : JVal),
    RoundV v → (∀ p ∈ fs, RoundV p.2) →
    ∀ (rest : List Char) (fuel : Nat), 1 + (k.data.length + 1) + needV v + needF fs ≤ fuel →
    parseObjLoop fuel ('"' :: (escData k.data ++ '"' :: (':' :: ' ' :: ((dumpVal (lvl + 2) v).data ++
      ((dumpFields (lvl + 2) fs).data ++ ('\n' :: ((spaces lvl).data ++ '\x7d' :: rest))))))) =
      some ((k, v) :: fs, rest) := by
  intro fs
  induction fs with
  | nil =>
    intro k v hv _ rest fuel hfuel
    obtain ⟨f, rfl⟩ : ∃ f, fuel = f + 1 := ⟨fuel - 1, by omega⟩
    simp only [needF] at hfuel
    have hv1 : 1 ≤ needV v := needV_pos v
    simp only [dumpFields]
    rw [show ((("" : String).data ++ ('\n' :: ((spaces lvl).data ++ '\x7d' :: rest)))) =
      '\n' :: ((spaces lvl).data ++ '\x7d' :: rest) from rfl]
    simp only [parseObjLoop]
    rw [skipWs_cons_neg _ _ (by decide)]
    show (match parseStrChars f (escData k.data ++ '"' :: (':' :: ' ' :: ((dumpVal (lvl + 2) v).data ++
        ('\n' :: ((spaces lvl).data ++ '\x7d' :: rest))))) with
      | some (kcs, r2) =>
        (match skipWs r2 with
        | ':' :: r3 =>
          (match parseVal f r3 with
          | some (v2, r4) =>
            (match skipWs r4 with
            | ',' :: r5 =>
              (match parseObjLoop f r5 with
              | some (fs2, r6) => some ((⟨kcs⟩, v2) :: fs2, r6)
              | none => none)
            | '\x7d' :: r5 => some ([(⟨kcs⟩, v2)], r5)
            | _ => none)
          | none => none)
        | _ => none)
      | none => none) = some ([(k, v)], rest)
    rw [parseStr_round k.data _ f (by omega)]
    show (match skipWs (':' :: ' ' :: ((dumpVal (lvl + 2) v).data ++
        ('\n' :: ((spaces lvl).data ++ '\x7d' :: rest)))) with
      | ':' :: r3 =>
        (match parseVal f r3 with
        | some (v2, r4) =>
          (match skipWs r4 with
          | ',' :: r5 =>
            (match parseObjLoop f r5 with
            | some (fs2, r6) => some ((⟨k.data⟩, v2) :: fs2, r6)
            | none => none)
          | '\x7d' :: r5 => some ([(⟨k.data⟩, v2)], r5)
          | _ => none)
        | none => none)
      | _ => none) = some ([(k, v)], rest)
    rw [skipWs_cons_neg _ _ (by decide)]
    show (match parseVal f (' ' :: ((dumpVal (lvl + 2) v).data ++
        ('\n' :: ((spaces lvl).data ++ '\x7d' :: rest)))) with
      | some (v2, r4) =>
        (match skipWs r4 with
        | ',' :: r5 =>
          (match parseObjLoop f r5 with
          | some (fs2, r6) => some ((⟨k.data⟩, v2) :: fs2, r6)
          | none => none)
        | '\x7d' :: r5 => some ([(⟨k.data⟩, v2)], r5)
        | _ => none)
      | none => none) = some ([(k, v)], rest)
    rw [show (' ' :: ((dumpVal (lvl + 2) v).data ++ ('\n' :: ((spaces lvl).data ++ '\x7d' :: rest)))) =
      [' '] ++ ((dumpVal (lvl + 2) v).data ++ ('\n' :: ((spaces lvl).data ++ '\x7d' :: rest))) from rfl]
    rw [parseVal_ws f [' '] _ (by intro c hc; rcases List.mem_singleton.1 hc with h; subst h; decide)]
    have hrestv : ∀ c, ('\n' :: ((spaces lvl).data ++ '\x7d' :: rest)).head? = some c →
        c.isDigit = false ∧ c ≠ '.' ∧ c ≠ 'e' ∧ c ≠ 'E' := by
      intro c hc
      injection hc with h1
      subst h1
      exact ⟨by decide, by decide, by decide, by decide⟩
    rw [hv (lvl + 2) ('\n' :: ((spaces lvl).data ++ '\x7d' :: rest)) f (by omega) hrestv]
    show (match skipWs ('\n' :: ((spaces lvl).data ++ '\x7d' :: rest)) with
      | ',' :: r5 =>
        (match parseObjLoop f r5 with
        | some (fs2, r6) => some ((⟨k.data⟩, v) :: fs2, r6)
        | none => none)
      | '\x7d' :: r5 => some ([(⟨k.data⟩, v)], r5)
      | _ => none) = some ([(k, v)], rest)
    have hskip : skipWs ('\n' :: ((spaces lvl).data ++ '\x7d' :: rest)) = '\x7d' :: rest := by
      rw [show ('\n' :: ((spaces lvl).data ++ '\x7d' :: rest)) =
        ('\n' :: (spaces lvl).data) ++ ('\x7d' :: rest) from by simp]
      rw [skipWs_append_ws _ _ (newline_spaces_ws lvl)]
      exact skipWs_cons_neg _ _ (by decide)
    rw [hskip]
    rfl
  | cons p fs2 ih =>
    obtain ⟨k2, v2⟩ := p
    intro k v hv hfs rest fuel hfuel
    obtain ⟨f, rfl⟩ : ∃ f, fuel = f + 1 := ⟨fuel - 1, by omega⟩
    simp only [needF] at hfuel
    have hv1 : 1 ≤ needV v := needV_pos v
    have hv21 : 1 ≤ needV v2 := needV_pos v2
    simp only [dumpFields, String.data_append, jsonQuote_data]
    simp only [show ((",\n" : String).data) = [',', '\n'] from rfl,
      show ((": " : String).data) = [':', ' '] from rfl, List.cons_append,
      List.append_assoc, List.nil_append]
    simp only [parseObjLoop]
    rw [skipWs_cons_neg _ _ (by decide)]
    show (match parseStrChars f (escData k.data ++ '"' :: (':' :: ' ' :: ((dumpVal (lvl + 2) v).data ++
        (',' :: '\n' :: ((spaces (lvl + 2)).data ++ '"' :: (escData k2.data ++ '"' :: (':' :: ' ' ::
          ((dumpVal (lvl + 2) v2).data ++ ((dumpFields (lvl + 2) fs2).data ++
            ('\n' :: ((spaces lvl).data ++ '\x7d' :: rest))))))))))) with
      | some (kcs, r2) =>
        (match skipWs r2 with
        | ':' :: r3 =>
          (match parseVal f r3 with
          | some (w, r4) =>
            (match skipWs r4 with
            | ',' :: r5 =>
              (match parseObjLoop f r5 with
              | some (gs, r6) => some ((⟨kcs⟩, w) :: gs, r6)
              | none => none)
            | '\x7d' :: r5 => some ([(⟨kcs⟩, w)], r5)
            | _ => none)
          | none => none)
        | _ => none)
      | none => none) = some ((k, v) :: (k2, v2) :: fs2, rest)
    rw [parseStr_round k.data _ f (by omega)]
    show (match skipWs (':' :: ' ' :: ((dumpVal (lvl + 2) v).data ++
        (',' :: '\n' :: ((spaces (lvl + 2)).data ++ '"' :: (escData k2.data ++ '"' :: (':' :: ' ' ::
          ((dumpVal (lvl + 2) v2).data ++ ((dumpFields (lvl + 2) fs2).data ++
            ('\n' :: ((spaces lvl).data ++ '\x7d' :: rest)))))))))) with
      | ':' :: r3 =>
        (match parseVal f r3 with
        | some (w, r4) =>
          (match skipWs r4 with
          | ',' :: r5 =>
            (match parseObjLoop f r5 with
            | some (gs, r6) => some ((⟨k.data⟩, w) :: gs, r6)
            | none => none)
          | '\x7d' :: r5 => some ([(⟨k.data⟩, w)], r5)
          | _ => none)
        | none => none)
      | _ => none) = some ((k, v) :: (k2, v2) :: fs2, rest)
    rw [skipWs_cons_neg _ _ (by decide)]
    show (match parseVal f (' ' :: ((dumpVal (lvl + 2) v).data ++
        (',' :: '\n' :: ((spaces (lvl + 2)).data ++ '"' :: (escData k2.data ++ '"' :: (':' :: ' ' ::
          ((dumpVal (lvl + 2) v2).data ++ ((dumpFields (lvl + 2) fs2).data ++
            ('\n' :: ((spaces lvl).data ++ '\x7d' :: rest)))))))))) with
      | some (w, r4) =>
        (match skipWs r4 with
        | ',' :: r5 =>
          (match parseObjLoop f r5 with
          | some (gs, r6) => some ((⟨k.data⟩, w) :: gs, r6)
          | none => none)
        | '\x7d' :: r5 => some ([(⟨k.data⟩, w)], r5)
        | _ => none)
      | none => none) = some ((k, v) :: (k2, v2) :: fs2, rest)
    rw [show (' ' :: ((dumpVal (lvl + 2) v).data ++
        (',' :: '\n' :: ((spaces (lvl + 2)).data ++ '"' :: (escData k2.data ++ '"' :: (':' :: ' ' ::
          ((dumpVal (lvl + 2) v2).data ++ ((dumpFields (lvl + 2) fs2).data ++
            ('\n' :: ((spaces lvl).data ++ '\x7d' :: rest)))))))))) =
      [' '] ++ ((dumpVal (lvl + 2) v).data ++
        (',' :: '\n' :: ((spaces (lvl + 2)).data ++ '"' :: (escData k2.data ++ '"' :: (':' :: ' ' ::
          ((dumpVal (lvl + 2) v2).data ++ ((dumpFields (lvl + 2) fs2).data ++
            ('\n' :: ((spaces lvl).data ++ '\x7d' :: rest))))))))) from rfl]
    rw [parseVal_ws f [' '] _ (by intro c hc; rcases List.mem_singleton.1 hc with h; subst h; decide)]
    have hrestv : ∀ c, (',' :: '\n' :: ((spaces (lvl + 2)).data ++ '"' :: (escData k2.data ++ '"' ::
        (':' :: ' ' :: ((dumpVal (lvl + 2) v2).data ++ ((dumpFields (lvl + 2) fs2).data ++
          ('\n' :: ((spaces lvl).data ++ '\x7d' :: rest)))))))).head? = some c →
        c.isDigit = false ∧ c ≠ '.' ∧ c ≠ 'e' ∧ c ≠ 'E' := by
      intro c hc
      injection hc with h1
      subst h1
      exact ⟨by decide, by decide, by decide, by decide⟩
    rw [hv (lvl + 2) _ f (by omega) hrestv]
    show (match skipWs (',' :: '\n' :: ((spaces (lvl + 2)).data ++ '"' :: (escData k2.data ++ '"' ::
        (':' :: ' ' :: ((dumpVal (lvl + 2) v2).data ++ ((dumpFields (lvl + 2) fs2).data ++
          ('\n' :: ((spaces lvl).data ++ '\x7d' :: rest)))))))) with
      | ',' :: r5 =>
        (match parseObjLoop f r5 with
        | some (gs, r6) => some ((⟨k.data⟩, v) :: gs, r6)
        | none => none)
      | '\x7d' :: r5 => some ([(⟨k.data⟩, v)], r5)
      | _ => none) = some ((k, v) :: (k2, v2) :: fs2, rest)
    rw [skipWs_cons_neg _ _ (by decide)]
    show (match parseObjLoop f ('\n' :: ((spaces (lvl + 2)).data ++ '"' :: (escData k2.data ++ '"' ::
        (':' :: ' ' :: ((dumpVal (lvl + 2) v2).data ++ ((dumpFields (lvl + 2) fs2).data ++
          ('\n' :: ((spaces lvl).data ++ '\x7d' :: rest)))))))) with
      | some (gs, r6) => some ((⟨k.data⟩, v) :: gs, r6)
      | none => none) = some ((k, v) :: (k2, v2) :: fs2, rest)
    rw [show ('\n' :: ((spaces (lvl + 2)).data ++ '"' :: (escData k2.data ++ '"' ::
        (':' :: ' ' :: ((dumpVal (lvl + 2) v2).data ++ ((dumpFields (lvl + 2) fs2).data ++
          ('\n' :: ((spaces lvl).data ++ '\x7d' :: rest)))))))) =
      ('\n' :: (spaces (lvl + 2)).data) ++ ('"' :: (escData k2.data ++ '"' ::
        (':' :: ' ' :: ((dumpVal (lvl + 2) v2).data ++ ((dumpFields (lvl + 2) fs2).data ++
          ('\n' :: ((spaces lvl).data ++ '\x7d' :: rest))))))) from by simp]
    rw [parseObjLoop_ws f _ _ (newline_spaces_ws (lvl + 2))]
    rw [ih k2 v2 (hfs (k2, v2) (List.mem_cons_self _ _))
      (fun p hp => hfs p (List.mem_cons_of_mem _ hp)) rest f (by omega)]

/-- Every value round-trips (strong induction on the size of the value). -/
theorem roundV_all : ∀ (n : Nat) (v : JVal), sizeOf v ≤ n → RoundV v := by
  intro n
  induction n with
  | zero =>
    intro v hv
    exfalso
    cases v <;> simp at hv <;> omega
  | succ n ih =>
    intro v hv
    cases v with
    | null => exact roundV_null
    | bool b => exact roundV_bool b
    | num m => exact roundV_num m
    | str s => exact roundV_str s
    | arr l =>
      cases l with
      | nil => exact roundV_arr_nil
      | cons x xs =>
        have hsz : sizeOf (x :: xs) ≤ n := by
          have : sizeOf (JVal.arr (x :: xs)) = 1 + sizeOf (x :: xs) := by simp
          omega
        have hmem : ∀ y ∈ x :: xs, RoundV y := by
          intro y hy
          exact ih y (by have := List.sizeOf_lt_of_mem hy; omega)
        intro lvl rest fuel hfuel hrest
        simp only [needV] at hfuel
        have hx1 : 1 ≤ needV x := needV_pos x
        obtain ⟨f, rfl⟩ : ∃ f, fuel = f + 1 := ⟨fuel - 1, by omega⟩
        simp only [dumpVal, String.data_append]
        simp only [show (("[\n" : String).data) = ['[', '\n'] from rfl,
          show (("\n" : String).data) = ['\n'] from rfl,
          show (("]" : String).data) = [']'] from rfl, List.cons_append,
          List.append_assoc, List.nil_append]
        simp only [parseVal]
        rw [skipWs_cons_neg _ _ (by decide)]
        show (match skipWs ('\n' :: ((spaces (lvl + 2)).data ++ ((dumpVal (lvl + 2) x).data ++
            ((dumpItems (lvl + 2) xs).data ++ ('\n' :: ((spaces lvl).data ++ ']' :: rest)))))) with
          | ']' :: rest2 => some (JVal.arr [], rest2)
          | _ =>
            (match parseArrLoop f (skipWs ('\n' :: ((spaces (lvl + 2)).data ++
                ((dumpVal (lvl + 2) x).data ++ ((dumpItems (lvl + 2) xs).data ++
                  ('\n' :: ((spaces lvl).data ++ ']' :: rest))))))) with
            | some (vs, rest2) => some (JVal.arr vs, rest2)
            | none => none)) = some (JVal.arr (x :: xs), rest)
        obtain ⟨c, hc, hcws, hcbr, hcbrace⟩ := dump_head (lvl + 2) x
        have hskipR : skipWs ('\n' :: ((spaces (lvl + 2)).data ++ ((dumpVal (lvl + 2) x).data ++
            ((dumpItems (lvl + 2) xs).data ++ ('\n' :: ((spaces lvl).data ++ ']' :: rest)))))) =
            (dumpVal (lvl + 2) x).data ++ ((dumpItems (lvl + 2) xs).data ++
              ('\n' :: ((spaces lvl).data ++ ']' :: rest))) := by
          rw [show ('\n' :: ((spaces (lvl + 2)).data ++ ((dumpVal (lvl + 2) x).data ++
              ((dumpItems (lvl + 2) xs).data ++ ('\n' :: ((spaces lvl).data ++ ']' :: rest)))))) =
            ('\n' :: (spaces (lvl + 2)).data) ++ ((dumpVal (lvl + 2) x).data ++
              ((dumpItems (lvl + 2) xs).data ++ ('\n' :: ((spaces lvl).data ++ ']' :: rest))))
            from by simp]
          rw [skipWs_append_ws _ _ (newline_spaces_ws (lvl + 2))]
          exact skipWs_head_neg _ _ c hc hcws
        rw [hskipR]
        split
        · next rest2 heq =>
          exfalso
          cases hd : (dumpVal (lvl + 2) x).data with
          | nil => rw [hd] at hc; exact absurd hc (by simp)
          | cons a t =>
            rw [hd] at hc heq
            injection hc with ha
            subst ha
            rw [List.cons_append] at heq
            injection heq with h1 h2
            exact hcbr h1
        · rw [arrLoop_round lvl xs x hmem rest f (by omega)]
    | obj l =>
      cases l with
      | nil => exact roundV_obj_nil
      | cons p fs =>
        obtain ⟨k, v⟩ := p
        have hsz : sizeOf ((k, v) :: fs) ≤ n := by
          have : sizeOf (JVal.obj ((k, v) :: fs)) = 1 + sizeOf ((k, v) :: fs) := by simp
          omega
        have hkv : sizeOf (k, v) = 1 + sizeOf k + sizeOf v := by simp
        have hcons : sizeOf ((k, v) :: fs) = 1 + sizeOf (k, v) + sizeOf fs := by simp
        have hvR : RoundV v := by
          apply ih
          have hk1 : 1 ≤ sizeOf k := by
            cases k
            simp
          omega
        have hfsR : ∀ p ∈ fs, RoundV p.2 := by
          intro p hp
          obtain ⟨pk, pv⟩ := p
          apply ih
          have hlt := List.sizeOf_lt_of_mem hp
          have hpkv : sizeOf (pk, pv) = 1 + sizeOf pk + sizeOf pv := by simp
          have hpk1 : 1 ≤ sizeOf pk := by
            cases pk
            simp
          simp only []
          omega
        intro lvl rest fuel hfuel hrest
        simp only [needV] at hfuel
        have hv1 : 1 ≤ needV v := needV_pos v
        obtain ⟨f, rfl⟩ : ∃ f, fuel = f + 1 := ⟨fuel - 1, by omega⟩
        simp only [dumpVal, String.data_append, jsonQuote_data]
        simp only [show (("\x7b\n" : String).data) = ['\x7b', '\n'] from rfl,
          show ((": " : String).data) = [':', ' '] from rfl,
          show (("\n" : String).data) = ['\n'] from rfl,
          show (("\x7d" : String).data) = ['\x7d'] from rfl, List.cons_append,
          List.append_assoc, List.nil_append]
        simp only [parseVal]
        rw [skipWs_cons_neg _ _ (by decide)]
        show (match skipWs ('\n' :: ((spaces (lvl + 2)).data ++ '"' :: (escData k.data ++ '"' ::
            (':' :: ' ' :: ((dumpVal (lvl + 2) v).data ++ ((dumpFields (lvl + 2) fs).data ++
              ('\n' :: ((spaces lvl).data ++ '\x7d' :: rest)))))))) with
          | '\x7d' :: rest2 => some (JVal.obj [], rest2)
          | _ =>
            (match parseObjLoop f (skipWs ('\n' :: ((spaces (lvl + 2)).data ++ '"' ::
                (escData k.data ++ '"' :: (':' :: ' ' :: ((dumpVal (lvl + 2) v).data ++
                  ((dumpFields (lvl + 2) fs).data ++
                    ('\n' :: ((spaces lvl).data ++ '\x7d' :: rest))))))))) with
            | some (gs, rest2) => some (JVal.obj gs, rest2)
            | none => none)) = some (JVal.obj ((k, v) :: fs), rest)
        have hskipR : skipWs ('\n' :: ((spaces (lvl + 2)).data ++ '"' :: (escData k.data ++ '"' ::
            (':' :: ' ' :: ((dumpVal (lvl + 2) v).data ++ ((dumpFields (lvl + 2) fs).data ++
              ('\n' :: ((spaces lvl).data ++ '\x7d' :: rest)))))))) =
            '"' :: (escData k.data ++ '"' :: (':' :: ' ' :: ((dumpVal (lvl + 2) v).data ++
              ((dumpFields (lvl + 2) fs).data ++ ('\n' :: ((spaces lvl).data ++ '\x7d' :: rest)))))) := by
          rw [show ('\n' :: ((spaces (lvl + 2)).data ++ '"' :: (escData k.data ++ '"' ::
              (':' :: ' ' :: ((dumpVal (lvl + 2) v).data ++ ((dumpFields (lvl + 2) fs).data ++
                ('\n' :: ((spaces lvl).data ++ '\x7d' :: rest)))))))) =
            ('\n' :: (spaces (lvl + 2)).data) ++ ('"' :: (escData k.data ++ '"' ::
              (':' :: ' ' :: ((dumpVal (lvl + 2) v).data ++ ((dumpFields (lvl + 2) fs).data ++
                ('\n' :: ((spaces lvl).data ++ '\x7d' :: rest))))))) from by simp]
          rw [skipWs_append_ws _ _ (newline_spaces_ws (lvl + 2))]
          exact skipWs_cons_neg _ _ (by decide)
        rw [hskipR]
        split
        · next rest2 heq => exact absurd heq (by simp)
        · rw [objLoop_round lvl fs k v hvR hfsR rest f (by omega)]

theorem jsonEscapeChar_len (c : Char) : 1 ≤ (jsonEscapeChar c).data.length := by
  rw [jsonEscapeChar]
  split_ifs <;> simp [String.data_append]

theorem escData_len (l : List Char) : l.length ≤ (escData l).length := by
  induction l with
  | nil => simp [escData]
  | cons c cs ih =>
    rw [escData, List.length_append, List.length_cons]
    have := jsonEscapeChar_len c
    omega

theorem spaces_len (n : Nat) : (spaces n).data.length = n := by
  rw [spaces]
  exact List.length_replicate n ' '

theorem jsonQuote_len (s : String) : s.data.length + 2 ≤ (jsonQuote s).data.length := by
  rw [jsonQuote_data]
  simp only [List.length_cons, List.length_append, List.length_singleton]
  have := escData_len s.data
  omega

theorem needL_le (lvl : Nat) (xs : List JVal)
    (h : ∀ y ∈ xs, ∀ l2, needV y ≤ (dumpVal l2 y).data.length) :
    needL xs ≤ (dumpItems lvl xs).data.length := by
  induction xs with
  | nil => simp [needL]
  | cons x xs ih =>
    rw [needL, dumpItems]
    simp only [String.data_append, List.length_append, List.length_cons, List.length_nil]
    have h1 := h x (List.mem_cons_self x xs) lvl
    have h2 := ih (fun y hy => h y (List.mem_cons_of_mem x hy))
    have h3 := spaces_len lvl
    have h4 : ((",\n" : String).data).length = 2 := rfl
    omega

theorem needF_le (lvl : Nat) (fs : List (String × JVal))
    (h : ∀ p ∈ fs, ∀ l2, needV p.2 ≤ (dumpVal l2 p.2).data.length) :
    needF fs ≤ (dumpFields lvl fs).data.length := by
  induction fs with
  | nil => simp [needF]
  | cons p fs ih =>
    obtain ⟨k, v⟩ := p
    rw [needF, dumpFields]
    simp only [String.data_append, List.length_append, List.length_cons, List.length_nil]
    have h1 : needV v ≤ (dumpVal lvl v).data.length := h (k, v) (List.mem_cons_self _ fs) lvl
    have h2 := ih (fun q hq => h q (List.mem_cons_of_mem _ hq))
    have h3 := spaces_len lvl
    have h4 : ((",\n" : String).data).length = 2 := rfl
    have h5 : ((": " : String).data).length = 2 := rfl
    have h6 := jsonQuote_len k
    omega

theorem intRepr_len (n : Int) : 1 ≤ (intRepr n).data.length := by
  rw [intRepr]
  split_ifs with h
  · simp [String.data_append]
  · cases hd : (natRepr n.toNat).data with
    | nil => exact absurd hd (natRepr_data_ne_nil n.toNat)
    | cons a t => simp [hd]

/-- The encoding is at least as long as the fuel the parser needs for it. -/
theorem needV_le_len : ∀ (n : Nat) (v : JVal), sizeOf v ≤ n →
    ∀ lvl, needV v ≤ (dumpVal lvl v).data.length := by
  intro n
  induction n with
  | zero =>
    intro v hv
    exfalso
    cases v <;> simp at hv <;> omega
  | succ n ih =>
    intro v hv lvl
    cases v with
    | null => simp [needV, dumpVal]
    | bool b => cases b <;> simp [needV, dumpVal]
    | num m =>
      rw [needV]
      simp only [dumpVal]
      exact intRepr_len m
    | str s =>
      rw [needV]
      simp only [dumpVal]
      exact jsonQuote_len s
    | arr l =>
      cases l with
      | nil => simp [needV, dumpVal]
      | cons x xs =>
        have hsz : sizeOf (x :: xs) ≤ n := by
          have : sizeOf (JVal.arr (x :: xs)) = 1 + sizeOf (x :: xs) := by simp
          omega
        have hmem : ∀ y ∈ x :: xs, ∀ l2, needV y ≤ (dumpVal l2 y).data.length := by
          intro y hy
          exact ih y (by have := List.sizeOf_lt_of_mem hy; omega)
        rw [needV, dumpVal]
        simp only [String.data_append, List.length_append, List.length_cons, List.length_nil]
        have h1 := hmem x (List.mem_cons_self x xs) (lvl + 2)
        have h2 := needL_le (lvl + 2) xs (fun y hy => hmem y (List.mem_cons_of_mem x hy))
        have h3 := spaces_len lvl
        have h4 := spaces_len (lvl + 2)
        have h5 : (("[\n" : String).data).length = 2 := rfl
        have h6 : (("\n" : String).data).length = 1 := rfl
        have h7 : (("]" : String).data).length = 1 := rfl
        omega
    | obj l =>
      cases l with
      | nil => simp [needV, dumpVal]
      | cons p fs =>
        obtain ⟨k, v⟩ := p
        have hsz : sizeOf ((k, v) :: fs) ≤ n := by
          have : sizeOf (JVal.obj ((k, v) :: fs)) = 1 + sizeOf ((k, v) :: fs) := by simp
          omega
        have hkv : sizeOf (k, v) = 1 + sizeOf k + sizeOf v := by simp
        have hcons : sizeOf ((k, v) :: fs) = 1 + sizeOf (k, v) + sizeOf fs := by simp
        have hv2 : ∀ l2, needV v ≤ (dumpVal l2 v).data.length := by
          apply ih
          have hk1 : 1 ≤ sizeOf k := by
            cases k
            simp
          omega
        have hfs2 : ∀ p ∈ fs, ∀ l2, needV p.2 ≤ (dumpVal l2 p.2).data.length := by
          intro p hp
          obtain ⟨pk, pv⟩ := p
          apply ih
          have hlt := List.sizeOf_lt_of_mem hp
          have hpkv : sizeOf (pk, pv) = 1 + sizeOf pk + sizeOf pv := by simp
          have hpk1 : 1 ≤ sizeOf pk := by
            cases pk
            simp
          simp only []
          omega
        rw [needV, dumpVal]
        simp only [String.data_append, List.length_append, List.length_cons, List.length_nil]
        have h1 := hv2 (lvl + 2)
        have h2 := needF_le (lvl + 2) fs hfs2
        have h3 := spaces_len lvl
        have h4 := spaces_len (lvl + 2)
        have h5 : (("\x7b\n" : String).data).length = 2 := rfl
        have h6 : (("\n" : String).data).length = 1 := rfl
        have h7 : (("\x7d" : String).data).length = 1 := rfl
        have h8 := jsonQuote_len k
        have h9 : ((": " : String).data).length = 2 := rfl
        omega

/-- Writing the store with `save_recipes` and parsing it back with
`json.load` reproduces the record array exactly. -/
theorem save_roundtrip (rs : List JVal) : json_load (save_recipes rs) = some (.arr rs) := by
  rw [json_load, save_recipes]
  have hR : RoundV (.arr rs) := roundV_all (sizeOf (JVal.arr rs)) _ le_rfl
  have hlen : needV (.arr rs) ≤ (dumpVal 0 (.arr rs)).data.length :=
    needV_le_len (sizeOf (JVal.arr rs)) _ le_rfl 0
  have hp : parseVal ((dumpVal 0 (.arr rs)).data.length + 1)
      ((dumpVal 0 (.arr rs)).data ++ []) = some (.arr rs, []) :=
    hR 0 [] _ (by omega) (by intro c hc; simp at hc)
  rw [List.append_nil] at hp
  rw [hp]
  rfl

/-- The generator's read of a store just written: parse succeeds and the
success filter is applied to exactly the original records. -/
theorem load_save (rs : List JVal) :
    load_recipes (.content (save_recipes rs)) = successFilter rs := by
  show (match json_load (save_recipes rs) with
    | none => .error ()
    | some (.arr rs2) => successFilter rs2
    | some (.obj fs) => if fs.isEmpty then .ok [] else .error ()
    | some (.str s) => if s.data.isEmpty then .ok [] else .error ()
    | some _ => .error ()) = successFilter rs
  rw [save_roundtrip rs]

theorem successFilter_all_ok : ∀ rs : List JVal,
    (∀ r ∈ rs, ∃ fs, r = JVal.obj fs ∧
      ((lookupField fs "scraped_successfully").getD .null).truthy = true) →
    successFilter rs = .ok rs := by
  intro rs
  induction rs with
  | nil => intro _; rfl
  | cons r rest ih =>
    intro h
    obtain ⟨fs, hr, htr⟩ := h r (List.mem_cons_self r rest)
    subst hr
    rw [successFilter, ih (fun q hq => h q (List.mem_cons_of_mem _ hq))]
    rw [htr]
    rfl

/-- Claim C7 counterexample: the claim says every record sequence written by
the Store's write (`save_recipes`) and read back through the Store's read
(`load_recipes`) comes back field-for-field equal.  But the read path filters
to records whose `scraped_successfully` is truthy, so a sequence holding a
failed record (as built by `scrape_recipe` on a fetch exception) reads back
without it: a one-record failed sequence comes back empty. -/
theorem claim_C7_counterexample :
    load_recipes (.content (save_recipes
      [scrape_recipe "https://example.com/r" "Tarte" (.exn "timeout")])) = .ok [] ∧
    [scrape_recipe "https://example.com/r" "Tarte" (.exn "timeout")] ≠ ([] : List JVal) := by
  constructor
  · rw [load_save]
    rfl
  · simp

/-- Claim C7 (amended): serializing a record sequence through the Store's
write and deserializing with `json.load` is an exact round-trip (every record,
field order, and the sequence order are preserved); the Store's full read path
equals that round-trip followed by the `scraped_successfully` filter, and so
returns the original sequence exactly when every record is a dict whose
`scraped_successfully` value is truthy. -/
theorem claim_C7_amended (recipes : List JVal) :
    json_load (save_recipes recipes) = some (.arr recipes) ∧
    load_recipes (.content (save_recipes recipes)) = successFilter recipes ∧
    ((∀ r ∈ recipes, ∃ fs, r = JVal.obj fs ∧
        ((lookupField fs "scraped_successfully").getD .null).truthy = true) →
      load_recipes (.content (save_recipes recipes)) = .ok recipes) := by
  refine ⟨save_roundtrip recipes, load_save recipes, ?_⟩
  intro h
  rw [load_save recipes]
  exact successFilter_all_ok recipes h

/-- Claim C7 witness: a store written from one successful record reads back
as exactly that record. -/
theorem claim_C7_witness :
    load_recipes (.content (save_recipes
      [JVal.obj [("title", .str "Pasta"), ("scraped_successfully", .bool true)]])) =
      .ok [JVal.obj [("title", .str "Pasta"), ("scraped_successfully", .bool true)]] :=
  (claim_C7_amended
      [JVal.obj [("title", .str "Pasta"), ("scraped_successfully", .bool true)]]).2.2
    (by
      intro r hr
      rw [List.mem_singleton] at hr
      subst hr
      exact ⟨_, rfl, by decide⟩)
